import Mathlib

/-!
A shallow embedding of the pluggy CLI (repository ch99q/pluggy: src/mod.ts
together with the logging and platform modules found in src/unnamed/).

Conventions of the embedding:
* Filesystem paths are opaque strings; `join` is textual concatenation with
  "/" and no ".."/"." canonicalisation is modelled (the tool always joins a
  fixed directory constant with a simple file name).  `ROOT_DIR` is the
  ambient root, so `resolve(ROOT_DIR, p)` and `relative(ROOT_DIR, p)` are
  both the identity on the already-resolved path string `p`.
* The filesystem is a `World`: a list of (path, content) files, a list of
  directories, and a trace of the write/remove/network operations performed
  (console logging is an external collaborator per the spec and is not
  modelled).
* Effectful functions live in the state monad `M α = World → Except String α
  × World`: an error carries the thrown message and the world at the time of
  the throw (JavaScript exceptions do not roll the filesystem back).
* Network and external tools (Modrinth API, maven repositories, the YAML
  parser/printer, javac and jar) are oracles collected in `Oracles`; they are
  pure functions, so a repeated call observes the same answer.
* JavaScript truthiness on optional strings (`undefined` and "" are falsy)
  is `jsTruthy`; interpolating `undefined` into a template literal yields
  the string "undefined" (`optStr`).
-/

/-- Dependency specifier classes of §3 of the spec (the tagged value). -/
inductive DepClass where
  | registry
  | coordinate
  | localFile
deriving DecidableEq, Repr

/-- Per-dependency shading rule: `interface Shading` (mod.ts).  The source
field names are `exclude` and `include`; `include` is reserved in Lean, so
the second field is `includeList`. -/
structure Shading where
  exclude : Option (List String)
  includeList : Option (List String)
deriving DecidableEq, Repr

/-- `interface Project` (mod.ts).  `compatibility.versions` and
`compatibility.platforms` are flattened into `compatVersions` and
`compatPlatforms`; record-typed fields (`resources`, `dependencies`,
`shading`) are insertion-ordered association lists, matching the
enumeration order of a JavaScript object literal parsed from JSON. -/
structure Project where
  name : String
  version : String
  main : String
  description : String
  authors : Option (List String)
  resources : List (String × String)
  dependencies : List (String × String)
  shading : List (String × Shading)
  compatVersions : List String
  compatPlatforms : List String
  registries : Option (List String)
deriving DecidableEq, Repr

/-- The plugin.yml manifest fragment fields the tool reads or writes
(mod.ts `parsedYaml` / `DEFAULT_PLUGIN_YML`).  Every field is optional: a
YAML document may omit any of them.  `dependencies` is a comma-separated
string in a fragment (the code calls `.split(",")` on it). -/
structure PluginYaml where
  name : Option String
  version : Option String
  main : Option String
  description : Option String
  author : Option String
  authors : Option (List String)
  dependencies : Option String
  registries : Option (List String)
  api_version : Option String
deriving DecidableEq, Repr

/-- The fragment parsed from an absent or empty document: every field
undefined. -/
def emptyPluginYaml : PluginYaml :=
  { name := none, version := none, main := none, description := none,
    author := none, authors := none, dependencies := none,
    registries := none, api_version := none }

/-- File contents.  `text` is a text file, `jarFile` a zip archive as its
entry list (entry name, entry bytes decoded as text), `bin` opaque bytes
identified by a token, `config` the serialized project declaration
(JSON.stringify of a `Project` is injective, so the serialized form is
represented by the record itself). -/
inductive FData where
  | text (s : String)
  | jarFile (entries : List (String × String))
  | bin (payload : Nat)
  | config (p : Project)
deriving DecidableEq, Repr

/-- The filesystem together with an operation trace. -/
structure World where
  files : List (String × FData)
  dirs : List String
  trace : List String
deriving DecidableEq, Repr

/-- First file entry at a path (Deno.readFile / readTextFile). -/
def fsLookup (w : World) (p : String) : Option FData :=
  (w.files.find? (fun e => e.1 == p)).map (fun e => e.2)

/-- Does a file exist at the path (Deno.stat –> true/false pattern). -/
def fsHas (w : World) (p : String) : Bool :=
  w.files.any (fun e => e.1 == p)

/-- Write a file (Deno.writeFile / writeTextFile): replaces any previous
content at the path. -/
def fsWrite (w : World) (p : String) (d : FData) : World :=
  { w with
    files := (w.files.filter (fun e => !(e.1 == p))) ++ [(p, d)],
    trace := w.trace ++ ["write " ++ p] }

/-- Remove a file (Deno.remove on a file). -/
def fsRemove (w : World) (p : String) : World :=
  { w with
    files := w.files.filter (fun e => !(e.1 == p)),
    trace := w.trace ++ ["remove " ++ p] }

/-- Create a directory (Deno.mkdir recursive: no error when it exists). -/
def fsMkdir (w : World) (p : String) : World :=
  { w with dirs := if w.dirs.contains p then w.dirs else w.dirs ++ [p] }

/-- Remove a whole directory tree (Deno.remove recursive, errors swallowed
by `.catch(() => {})`). -/
def fsRemoveTree (w : World) (d : String) : World :=
  { w with
    files := w.files.filter (fun e => !((d ++ "/").toList.isPrefixOf e.1.toList)),
    trace := w.trace ++ ["rmtree " ++ d] }

/-- The effect monad: state `World`, exceptions as `Except String`.  An
exception keeps the world reached so far. -/
def M (α : Type) : Type := World → Except String α × World

instance : Monad M where
  pure a := fun w => (Except.ok a, w)
  bind x f := fun w =>
    match x w with
    | (Except.ok a, w₁) => f a w₁
    | (Except.error e, w₁) => (Except.error e, w₁)

/-- `throw new Error(msg)`. -/
def mthrow {α : Type} (e : String) : M α := fun w => (Except.error e, w)

/-- Run a handler on failure (`promise.catch`). -/
def catchM {α : Type} (x : M α) (h : String → M α) : M α := fun w =>
  match x w with
  | (Except.ok a, w₁) => (Except.ok a, w₁)
  | (Except.error e, w₁) => h e w₁

def getW : M World := fun w => (Except.ok w, w)

def writeF (p : String) (d : FData) : M Unit := fun w => (Except.ok (), fsWrite w p d)

def removeF (p : String) : M Unit := fun w => (Except.ok (), fsRemove w p)

def removeTreeF (d : String) : M Unit := fun w => (Except.ok (), fsRemoveTree w d)

def mkdirF (p : String) : M Unit := fun w => (Except.ok (), fsMkdir w p)

def statF (p : String) : M Bool := fun w => (Except.ok (fsHas w p), w)

def readF (p : String) : M FData := fun w =>
  match fsLookup w p with
  | some d => (Except.ok d, w)
  | none => (Except.error ("ENOENT: " ++ p), w)

/-- Record an external I/O operation (a network fetch) in the trace. -/
def traceM (s : String) : M Unit := fun w =>
  (Except.ok (), { w with trace := w.trace ++ [s] })

def liftE {α : Type} : Except String α → M α
  | Except.ok a => pure a
  | Except.error e => mthrow e

-- ––––– JavaScript string/collection helpers –––––

/-- `String.prototype.startsWith`. -/
def jsStartsWith (s pre : String) : Bool := pre.toList.isPrefixOf s.toList

/-- `String.prototype.endsWith`. -/
def jsEndsWith (s suf : String) : Bool := suf.toList.isSuffixOf s.toList

/-- `String.prototype.slice(n)`. -/
def jsSlice (s : String) (n : Nat) : String := ⟨s.toList.drop n⟩

/-- JavaScript truthiness of a `string | undefined` value: `undefined` and
the empty string are falsy. -/
def jsTruthy : Option String → Bool
  | some s => !(s == "")
  | none => false

/-- Interpolating a `string | undefined` into a template literal:
`undefined` prints as "undefined". -/
def optStr : Option String → String
  | some s => s
  | none => "undefined"

/-- `String.prototype.trim`. -/
def jsTrim (s : String) : String :=
  ⟨((s.toList.dropWhile Char.isWhitespace).reverse.dropWhile Char.isWhitespace).reverse⟩

/-- `String.prototype.split` with a one-character separator (every
separator the tool uses is one character): keeps empty pieces, like
JavaScript's split. -/
def splitChar (c : Char) : List Char → List (List Char)
  | [] => [[]]
  | x :: xs =>
    if x = c then [] :: splitChar c xs
    else
      match splitChar c xs with
      | [] => [[x]]
      | h :: t => (x :: h) :: t

def jsSplit (s : String) (c : Char) : List String :=
  (splitChar c s.toList).map (fun l => ⟨l⟩)

/-- `new Set(list)` read back in iteration order: first occurrences kept. -/
def jsSetList (l : List String) : List String :=
  l.foldl (fun acc x => if acc.contains x then acc else acc ++ [x]) []

/-- Path segments (split on "/"). -/
def pathSegs (s : String) : List String := jsSplit s '/'

/-- `basename` from jsr:@std/path applied to a zip entry name: the final
"/"-separated segment. -/
def basename (s : String) : String := (pathSegs s).getLastD s

/-- `basename(path, ext)`: final segment with the extension stripped. -/
def basenameExt (s ext : String) : String :=
  let b := basename s
  if jsEndsWith b ext then ⟨b.toList.take (b.toList.length - ext.toList.length)⟩ else b

/-- The directory part of a path (everything before the final "/"). -/
def dirnameStr (s : String) : String :=
  String.intercalate "/" (pathSegs s).dropLast

/-- Replace every non-overlapping occurrence of `pat` in `s` by `rep`,
left to right (JavaScript `String.replace` with a global literal
pattern). -/
def replaceAll (pat rep : List Char) : List Char → List Char
  | [] => []
  | c :: cs =>
    if h : pat ≠ [] ∧ pat.isPrefixOf (c :: cs) then
      rep ++ replaceAll pat rep ((c :: cs).drop pat.length)
    else
      c :: replaceAll pat rep cs
termination_by s => s.length
decreasing_by
  · simp only [List.length_drop, List.length_cons]
    have hlen : 0 < pat.length := List.length_pos.mpr h.1
    omega
  · simp

/-- `String.replace(/pat/g, rep)` for a literal pattern. -/
def jsReplaceAll (s pat rep : String) : String :=
  ⟨replaceAll pat.toList rep.toList s.toList⟩

-- ––––– glob matching –––––

/-- Segment-wise glob matching: models `globToRegExp` from jsr:@std/path for
the pattern forms the tool uses (literal segments, `*` = one whole segment,
`**` = any number of segments, including zero; a `**` segment consumes any
suffix-starting point of the name). -/
def globSegs : List String → List String → Bool
  | [], ns => ns.isEmpty
  | p :: ps, ns =>
    if p = "**" then
      (List.range (ns.length + 1)).any (fun k => globSegs ps (ns.drop k))
    else
      match ns with
      | [] => false
      | n :: ns₁ => (if p = "*" then true else p == n) && globSegs ps ns₁

/-- `globToRegExp(pat).test(name)`. -/
def globMatch (pat name : String) : Bool := globSegs (pathSegs pat) (pathSegs name)

-- ––––– levenshtein distance and the sort comparator –––––

/-- Levenshtein edit distance (jsr:@std/text `levenshteinDistance`). -/
def lev : List Char → List Char → Nat
  | [], ys => ys.length
  | x :: xs, [] => (x :: xs).length
  | x :: xs, y :: ys =>
    if x = y then lev xs ys
    else 1 + min (lev xs ys) (min (lev (x :: xs) ys) (lev xs (y :: ys)))
termination_by xs ys => xs.length + ys.length
decreasing_by
  · simp only [List.length_cons]; omega
  · simp only [List.length_cons]; omega
  · simp only [List.length_cons]; omega
  · simp only [List.length_cons]; omega

def levenshteinDistance (a b : String) : Nat := lev a.toList b.toList

/-- One insertion step of `Array.prototype.sort` (V8 insertion sort for
short arrays) under the comparator `(a, b) => levenshteinDistance(a, b)`.
That comparator never returns a negative number, so a pivot distinct from
every element of the sorted run is placed after all of them; a pivot equal
to an element (distance 0) stops at it. -/
def jsInsertLev (x : String) : List String → List String
  | [] => [x]
  | y :: ys => if levenshteinDistance x y = 0 then x :: y :: ys else y :: jsInsertLev x ys

/-- `versions.sort((a, b) => levenshteinDistance(a, b))` as the insertion
sort above over the declared list order. -/
def jsSortLev (l : List String) : List String :=
  l.foldl (fun acc x => jsInsertLev x acc) []

/-- `list[0]` on a possibly empty array: `undefined` interpolates as the
string "undefined" when later joined into a path. -/
def jsHeadOrUndefined (l : List String) : String := l.headD "undefined"

/-- The "active" game version of `getActivePlatform`:
`project.compatibility.versions.sort((a, b) => levenshteinDistance(a, b))[0]`. -/
def activeGameVersion (versions : List String) : String :=
  jsHeadOrUndefined (jsSortLev versions)

-- ––––– platforms (src/unnamed/part_002, platform.ts) –––––

def PLATFORMS : List String := ["spigot", "paper"]

/-- `checkPlatform` (platform.ts): returns the platform when it is in the
known set and THROWS otherwise. -/
def checkPlatform (platform : String) : Except String String :=
  if PLATFORMS.contains platform then Except.ok platform
  else
    Except.error ("Invalid platform: " ++ platform ++ ". Supported platforms are '"
      ++ String.intercalate "', '" PLATFORMS ++ "'.")

/-- `project.compatibility.platforms.find(platform =>
PLATFORMS.includes(checkPlatform(platform)))`: the predicate of `find`
calls `checkPlatform`, whose exception escapes the `find`. -/
def findActivePlatform : List String → Except String (Option String)
  | [] => Except.ok none
  | p :: ps =>
    match checkPlatform p with
    | Except.error e => Except.error e
    | Except.ok q =>
      if PLATFORMS.contains q then Except.ok (some p) else findActivePlatform ps

/-- `getActivePlatform` (mod.ts 65–78). -/
def getActivePlatform (proj : Project) : Except String (String × String) :=
  match findActivePlatform proj.compatPlatforms with
  | Except.error e => Except.error e
  | Except.ok none =>
    Except.error "No active platform found in project compatibility settings. Please ensure your project is compatible with at least one platform."
  | Except.ok (some platform) =>
    Except.ok (platform, activeGameVersion proj.compatVersions)

def SPIGOT_MAVEN_REPO : String :=
  "https://hub.spigotmc.org/nexus/content/repositories/snapshots/org/spigotmc/spigot-api"

def PAPER_MAVEN_REPO : String :=
  "https://repo.papermc.io/repository/maven-snapshots/io/papermc/paper/paper-api"

/-- `getPlatformRepository` (platform.ts).  Its `checkPlatform` rethrow is
unreachable at the call sites modelled here (the argument always comes from
`getActivePlatform`, which only returns members of `PLATFORMS`). -/
def getPlatformRepository (platform : String) : String :=
  if platform == "spigot" then SPIGOT_MAVEN_REPO else PAPER_MAVEN_REPO

-- ––––– dependency-specifier classification (mod.ts 556–611, 183–197) –––––

/-- The specifier starts the external-coordinate branch: `"maven:"`. -/
def isCoordinateSpec (s : String) : Bool := jsStartsWith s "maven:"

/-- The specifier starts the local-file branch: `"file:"`, `"/"`, `"./"` or
`"../"`. -/
def isLocalSpec (s : String) : Bool :=
  jsStartsWith s "file:" || jsStartsWith s "/" || jsStartsWith s "./" || jsStartsWith s "../"

/-- The if/else-if/else chain of `addDependency`: maven prefix first, then
the local-path shapes, registry otherwise (an empty string is falsy and
falls through to the registry branch, matching `dependency &&`). -/
def classifySpec (s : String) : DepClass :=
  if jsTruthy (some s) && isCoordinateSpec s then DepClass.coordinate
  else if jsTruthy (some s) && isLocalSpec s then DepClass.localFile
  else DepClass.registry

-- ––––– archive inspection: jarToObject (mod.ts 251–301) –––––

/-- `result[key] = value` on a JavaScript object: an existing key keeps its
position and gets the new value, a new key is appended. -/
def insertJS (l : List (String × String)) (k v : String) : List (String × String) :=
  if l.any (fun e => e.1 == k) then l.map (fun e => if e.1 == k then (k, v) else e)
  else l ++ [(k, v)]

/-- One zip entry of `jarToObject`'s entry handler: skip directories, then
exclusion patterns, then (when an include list is given) inclusion
patterns; a surviving entry is stored under its `basename`. -/
def jarFilterStep (exclude : List String) (includePats : Option (List String))
    (acc : List (String × String)) (e : String × String) : List (String × String) :=
  if jsEndsWith e.1 "/" then acc
  else if exclude.any (fun pat => globMatch pat e.1) then acc
  else
    match includePats with
    | some inc =>
      if inc.any (fun pat => globMatch pat e.1) then insertJS acc (basename e.1) e.2 else acc
    | none => insertJS acc (basename e.1) e.2

/-- The pure core of `jarToObject`: the archive's entry list filtered into
the result object.  An absent `exclude` argument behaves as the empty list
(`exclude?.some(...)` on `undefined` is falsy), so `exclude` is a plain
list here. -/
def jarFilter (entries : List (String × String)) (exclude : List String)
    (includePats : Option (List String)) : List (String × String) :=
  entries.foldl (jarFilterStep exclude includePats) []

/-- `jarToObject(jarPath, exclude, include)`: open the archive (I/O error
when missing or not a zip), filter its entries. -/
def jarToObject (jarPath : String) (exclude : List String)
    (includePats : Option (List String)) : M (List (String × String)) := do
  let d ← readF jarPath
  match d with
  | FData.jarFile entries => pure (jarFilter entries exclude includePats)
  | _ => mthrow ("not a zip archive: " ++ jarPath)

/-- Lookup in the object produced by `jarFilter` (`jarObject["plugin.yml"]`). -/
def objLookup (l : List (String × String)) (k : String) : Option String :=
  (l.find? (fun e => e.1 == k)).map (fun e => e.2)

-- ––––– registry client data (mod.ts 482–554) –––––

structure MFile where
  filename : String
  url : String
  primary : Bool
deriving DecidableEq, Repr

structure MVersion where
  version_number : String
  version_type : String
  loaders : List String
  game_versions : List String
  files : List MFile
deriving DecidableEq, Repr

structure MProject where
  id : String
  title : String
  versions : List MVersion
deriving DecidableEq, Repr

/-- External collaborators as pure oracles: the Modrinth API, raw URL
fetches (maven artifacts and version file downloads; `none` covers both a
network throw and a non-ok response), platform snapshot resolution
(`downloadSnapshot`, keyed by repository and version, returning the jar
bytes), the YAML parser/printer, and the compiler/archiver subprocesses
(`Except.error` carries the captured stderr). -/
structure Oracles where
  modrinth : String → Option MProject
  fetchUrl : String → Option Nat
  snapshot : String → String → Option Nat
  yamlParse : String → Except String PluginYaml
  yamlDump : PluginYaml → List String → String → String
  javac : List String → List String → Except String Unit
  jarTool : String → Except String Nat

/-- `getModrinthProject` (mod.ts 526–539): both fetches and the
empty-version-list check collapsed over the oracle. -/
def getModrinthProject (ext : Oracles) (id : String) : M MProject := do
  traceM ("GET modrinth project " ++ id)
  match ext.modrinth id with
  | none => mthrow ("Failed to fetch project " ++ id ++ " from Modrinth")
  | some p =>
    if p.versions.isEmpty then
      mthrow ("No versions found for project " ++ id ++ " on Modrinth")
    else pure p

-- ––––– dependency resolver constants and helpers –––––

def CONFIG_FILE : String := "plugin.json"
def LIBS_DIR : String := "libs"
def BUILD_DIR : String := "bin"
def DIST_DIR : String := "dist"
def MAVEN_CENTRAL : String := "https://repo1.maven.org/maven2/"

/-- `new Set(project.registries || []); set.add(MAVEN_CENTRAL)` iterated in
insertion order. -/
def registriesOf (proj : Project) : List String :=
  let base := jsSetList (proj.registries.getD [])
  if base.contains MAVEN_CENTRAL then base else base ++ [MAVEN_CENTRAL]

/-- `groupId.replace(/\./g, "/") + "/" + artifactId + "/" + version + "/" +
artifactId + "-" + version + ".jar"`. -/
def mavenArtifactPath (g a v : String) : String :=
  String.intercalate "/" (jsSplit g '.') ++ "/" ++ a ++ "/" ++ v ++ "/" ++ a ++ "-" ++ v ++ ".jar"

/-- `version.slice(6).split(":").flatMap(part => part.split("@"))` used by
`installDependencies` and `generateClassPath` on a maven specifier. -/
def parseMavenInstall (s : String) : List String :=
  (jsSplit (jsSlice s 6) ':').flatMap (fun part => jsSplit part '@')

/-- Try each registry in order for the artifact; returns the payload of the
first registry whose fetch succeeds (`new URL(path, registry)` is modelled
as concatenation: every registry URL the tool uses ends in "/"). -/
def tryRegistries (ext : Oracles) : List String → String → M (Option Nat)
  | [], _ => pure none
  | reg :: rest, artifactPath => do
    traceM ("GET " ++ reg ++ artifactPath)
    match ext.fetchUrl (reg ++ artifactPath) with
    | some payload => pure (some payload)
    | none => tryRegistries ext rest artifactPath

/-- `project.dependencies[key]` on the association-list model. -/
def depsLookup (deps : List (String × String)) (k : String) : Option String :=
  (deps.find? (fun e => e.1 == k)).map (fun e => e.2)

/-- `jars.add(p)` on a JavaScript Set kept as a list in insertion order. -/
def addJar (jars : List String) (p : String) : List String :=
  if jars.contains p then jars else jars ++ [p]

def addJars (jars : List String) (ps : List String) : List String :=
  ps.foldl addJar jars

-- ––––– version selection: addDependency's loop (mod.ts 621–648) –––––

/-- The `for (const versionInfo of modrinthProject.versions)` loop of
`addDependency`: skip on a mismatched requested version (when one is
given), on platform mismatch, on game-version mismatch unless force, on a
missing primary file, and on a non-release maturity unless beta; when a
version qualifies but the dependency is already recorded and force is
unset the loop `break`s (signalled here by `none`, which the caller turns
into the same "No compatible version found" error as exhaustion). -/
def selectVersionAdd (reqVer : Option String) (force beta already : Bool)
    (compatPlatforms compatVersions : List String) : List MVersion → Option MVersion
  | [] => none
  | v :: rest =>
    if jsTruthy reqVer && !(optStr reqVer == v.version_number) then
      selectVersionAdd reqVer force beta already compatPlatforms compatVersions rest
    else if !(v.loaders.any (fun l => compatPlatforms.contains l)) then
      selectVersionAdd reqVer force beta already compatPlatforms compatVersions rest
    else if !force && !(v.game_versions.any (fun g => compatVersions.contains g)) then
      selectVersionAdd reqVer force beta already compatPlatforms compatVersions rest
    else
      match v.files.find? (fun f => f.primary) with
      | none => selectVersionAdd reqVer force beta already compatPlatforms compatVersions rest
      | some _ =>
        if !(v.version_type == "release") && !beta then
          selectVersionAdd reqVer force beta already compatPlatforms compatVersions rest
        else if already && !force then none
        else some v

-- ––––– version selection: installDependencies' loop (mod.ts 773–803) –––––

/-- The `for (const versionInfo of modrinthProject.versions)` loop of
`installDependencies`: `file` is a mutable slot (`acc`) reassigned by each
qualifying version; a version failing the game check still proceeds (with a
console warning) when it is exactly the requested one and force is unset;
the loop breaks as soon as the requested version's primary file is
captured. -/
def selectVersionInstall (reqVer : String) (force : Bool)
    (compatPlatforms compatVersions : List String) :
    List MVersion → Option MFile → Option MFile
  | [], acc => acc
  | v :: rest, acc =>
    if !(reqVer == "") && !(reqVer == v.version_number) then
      selectVersionInstall reqVer force compatPlatforms compatVersions rest acc
    else if !(v.loaders.any (fun l => compatPlatforms.contains l)) then
      selectVersionInstall reqVer force compatPlatforms compatVersions rest acc
    else if !force && !(v.game_versions.any (fun g => compatVersions.contains g))
        && !(!(reqVer == "") && reqVer == v.version_number) then
      selectVersionInstall reqVer force compatPlatforms compatVersions rest acc
    else
      match v.files.find? (fun f => f.primary) with
      | none => selectVersionInstall reqVer force compatPlatforms compatVersions rest acc
      | some f =>
        if !(reqVer == "") && reqVer == v.version_number then some f
        else selectVersionInstall reqVer force compatPlatforms compatVersions rest (some f)

-- ––––– addDependency (mod.ts 556–652) –––––

/-- `addDependency(project, dependency, version, force, beta)`: returns the
updated project.  The registry branch contains the literal guard of
mod.ts 615, `if (!modrinthProject.versions.some(v => v.version_number ===
version)) throw ...`: when no version was requested (`version` is
`undefined`) the strict comparison is false for every element and the
throw always fires. -/
def mavenAddParts (dependency : String) : List String := jsSplit (jsSlice dependency 6) ':'

/-- The path checked in `addDependency`'s local branch: the specifier with
a `file:` prefix stripped, resolved against the project root (identity in
this embedding). -/
def localSpecPath (dependency : String) : String :=
  if jsStartsWith dependency "file:" then jsSlice dependency 5 else dependency

def addDependency (ext : Oracles) (proj : Project) (dependency : String)
    (reqVer : Option String) (force beta : Bool) : M Project := do
  if jsTruthy (some dependency) && isCoordinateSpec dependency then
    if !(jsTruthy (some ((mavenAddParts dependency).getD 0 "")))
        || !(jsTruthy (some ((mavenAddParts dependency).getD 1 "")))
        || !(jsTruthy reqVer) then
      mthrow ("Invalid Maven dependency format: " ++ jsSlice dependency 6
        ++ ". Expected format: \"groupId:artifactId@version\".")
    else do
      let hit ← tryRegistries ext (registriesOf proj)
        (mavenArtifactPath ((mavenAddParts dependency).getD 0 "")
          ((mavenAddParts dependency).getD 1 "") (optStr reqVer))
      match hit with
      | some _ =>
        writeF CONFIG_FILE (FData.config { proj with
          dependencies := insertJS proj.dependencies ((mavenAddParts dependency).getD 1 "")
            ("maven:" ++ (mavenAddParts dependency).getD 0 "" ++ ":"
              ++ (mavenAddParts dependency).getD 1 "" ++ "@" ++ optStr reqVer) }) >>= fun _ =>
        pure { proj with
          dependencies := insertJS proj.dependencies ((mavenAddParts dependency).getD 1 "")
            ("maven:" ++ (mavenAddParts dependency).getD 0 "" ++ ":"
              ++ (mavenAddParts dependency).getD 1 "" ++ "@" ++ optStr reqVer) }
      | none =>
        mthrow ("Maven dependency \"" ++ (mavenAddParts dependency).getD 1 ""
          ++ "\" version \"" ++ optStr reqVer
          ++ "\" not found in specified registries: "
          ++ String.intercalate ", " (registriesOf proj) ++ ".")
  else if jsTruthy (some dependency) && isLocalSpec dependency then do
    let ex ← statF (localSpecPath dependency)
    if !ex then mthrow ("File " ++ localSpecPath dependency ++ " does not exist.")
    else do
      let jarObj ← jarToObject (localSpecPath dependency) [] (some ["plugin.yml"])
      let pluginData ← liftE (ext.yamlParse ((objLookup jarObj "plugin.yml").getD ""))
      writeF CONFIG_FILE (FData.config { proj with
        dependencies := insertJS proj.dependencies
          (if jsTruthy pluginData.name then optStr pluginData.name
           else basenameExt (localSpecPath dependency) ".jar")
          ("file:" ++ localSpecPath dependency) }) >>= fun _ =>
      pure { proj with
        dependencies := insertJS proj.dependencies
          (if jsTruthy pluginData.name then optStr pluginData.name
           else basenameExt (localSpecPath dependency) ".jar")
          ("file:" ++ localSpecPath dependency) }
  else do
    let mp ← catchM (getModrinthProject ext dependency)
      (fun _ => mthrow ("Unable to find " ++ dependency
        ++ " on Modrinth, try manually adding the file and do pluggy install "
        ++ dependency ++ "@file:./libs/" ++ dependency ++ ".jar"))
    if !(mp.versions.any (fun v =>
        match reqVer with
        | some r => v.version_number == r
        | none => false)) then
      mthrow ("Version " ++ optStr reqVer ++ " of project " ++ dependency
        ++ " not found on Modrinth. Available versions: "
        ++ String.intercalate ", " (mp.versions.map (fun v => v.version_number)))
    else
      match selectVersionAdd reqVer force beta
          (jsTruthy (depsLookup proj.dependencies dependency))
          proj.compatPlatforms proj.compatVersions mp.versions with
      | some v =>
        writeF CONFIG_FILE (FData.config { proj with
          dependencies := insertJS proj.dependencies dependency v.version_number }) >>= fun _ =>
        pure { proj with
          dependencies := insertJS proj.dependencies dependency v.version_number }
      | none =>
        mthrow ("No compatible version found for \"" ++ dependency
          ++ "\" that supports Minecraft " ++ String.intercalate ", " proj.compatVersions
          ++ " on platforms " ++ String.intercalate ", " proj.compatPlatforms
          ++ ". The plugin may not support these versions yet.")

-- ––––– removeDependency (mod.ts 654–680) –––––

/-- `removeDependency(project, dependency)`. -/
def removeDependency (proj : Project) (dependency : String) : M Project := do
  if dependency == "" then mthrow "Dependency name cannot be empty"
  else
    match depsLookup proj.dependencies dependency with
    | none => mthrow ("Dependency \"" ++ dependency ++ "\" not found in project.")
    | some version => do
      let proj₁ := { proj with
        dependencies := proj.dependencies.filter (fun e => !(e.1 == dependency)) }
      writeF CONFIG_FILE (FData.config proj₁)
      if !(jsStartsWith version "file:") then do
        let jarPath := LIBS_DIR ++ "/" ++ dependency ++ "-" ++ version ++ ".jar"
        let ex ← statF jarPath
        if ex then removeF jarPath else pure ()
        pure proj₁
      else pure proj₁

-- ––––– installDependencies (mod.ts 682–831) –––––

/-- `join(LIBS_DIR, platform + "-" + version + ".jar")` for the active
platform/version pair. -/
def platformJarPath (pv : String × String) : String :=
  LIBS_DIR ++ "/" ++ pv.1 ++ "-" ++ pv.2 ++ ".jar"

/-- The platform snapshot step (mod.ts 688–700): download and store the
platform server jar unless it is already present and no platform refresh
was forced. -/
def installPlatformStep (ext : Oracles) (platform version platformPath : String)
    (forcePlatform : Bool) : M Unit := do
  let ex ← statF platformPath
  if forcePlatform || !ex then do
    traceM ("GET snapshot " ++ getPlatformRepository platform ++ " " ++ version)
    match ext.snapshot (getPlatformRepository platform) version with
    | none =>
      mthrow ("Unable to resolve snapshot for " ++ platform ++ " version " ++ version
        ++ ". Please check your compatibility settings.")
    | some payload => do
      mkdirF LIBS_DIR
      writeF platformPath (FData.bin payload)
  else pure ()

/-- The libs path of a maven dependency entry:
`join(LIBS_DIR, artifactId + "-" + versionId + ".jar")`. -/
def mavenJarPathOf (version : String) : String :=
  LIBS_DIR ++ "/" ++ (parseMavenInstall version).getD 1 "" ++ "-"
    ++ (parseMavenInstall version).getD 2 "" ++ ".jar"

/-- The libs path of a registry dependency entry:
`join(LIBS_DIR, dependency + "-" + version + ".jar")`. -/
def registryJarPathOf (kv : String × String) : String :=
  LIBS_DIR ++ "/" ++ kv.1 ++ "-" ++ kv.2 ++ ".jar"

/-- One iteration of the `for (const [dependency, version] of
Object.entries(project.dependencies))` loop (mod.ts 702–818), returning
the updated `jars` set. -/
def processDep (ext : Oracles) (proj : Project) (force : Bool)
    (jars : List String) (kv : String × String) : M (List String) := do
  if kv.1 == "" then pure jars
  else if jsStartsWith kv.2 "maven:" then
    if (parseMavenInstall kv.2).getD 0 "" == "" || (parseMavenInstall kv.2).getD 1 "" == ""
        || (parseMavenInstall kv.2).getD 2 "" == "" then
      mthrow ("Invalid Maven dependency format: " ++ kv.2
        ++ ". Expected format: \"maven:groupId:artifactId@version\".")
    else do
      let ex ← statF (mavenJarPathOf kv.2)
      if ex && !force then pure (addJar jars (mavenJarPathOf kv.2))
      else do
        let hit ← tryRegistries ext (registriesOf proj)
          (mavenArtifactPath ((parseMavenInstall kv.2).getD 0 "")
            ((parseMavenInstall kv.2).getD 1 "") ((parseMavenInstall kv.2).getD 2 ""))
        match hit with
        | some payload => do
          mkdirF LIBS_DIR
          writeF (mavenJarPathOf kv.2) (FData.bin payload)
          pure (addJar jars (mavenJarPathOf kv.2))
        | none =>
          mthrow ("Maven dependency \"" ++ (parseMavenInstall kv.2).getD 1 ""
            ++ "\" version \"" ++ (parseMavenInstall kv.2).getD 2 ""
            ++ "\" not found in specified registries: "
            ++ String.intercalate ", " (registriesOf proj) ++ ".")
  else if jsStartsWith kv.2 "file:" then do
    let ex ← statF (jsSlice kv.2 5)
    if !ex then mthrow ("File " ++ jsSlice kv.2 5 ++ " does not exist.")
    else pure (addJar jars (jsSlice kv.2 5))
  else do
    let ex ← statF (registryJarPathOf kv)
    if force || !ex then do
      let mp ← getModrinthProject ext kv.1
      match selectVersionInstall kv.2 force proj.compatPlatforms proj.compatVersions
          mp.versions none with
      | none =>
        mthrow ("No compatible version found for " ++ kv.1
          ++ " in Modrinth. Please check your compatibility settings.")
      | some f => do
        traceM ("GET " ++ f.url)
        match ext.fetchUrl f.url with
        | none =>
          mthrow ("Failed to download " ++ kv.1 ++ " version " ++ kv.2
            ++ " from Modrinth")
        | some payload => do
          mkdirF LIBS_DIR
          writeF (registryJarPathOf kv) (FData.bin payload)
          pure (addJar jars (registryJarPathOf kv))
    else pure (addJar jars (registryJarPathOf kv))

/-- The dependency loop over the whole map. -/
def processDeps (ext : Oracles) (proj : Project) (force : Bool) :
    List (String × String) → List String → M (List String)
  | [], jars => pure jars
  | kv :: rest, jars => do
    let jars₁ ← processDep ext proj force jars kv
    processDeps ext proj force rest jars₁

/-- Is the path a direct `.jar` entry of the libs directory (what the
`Deno.readDir(LIBS_DIR)` loop of the garbage collector can see)? -/
def isLibsDirJar (p : String) : Bool :=
  jsStartsWith p (LIBS_DIR ++ "/")
    && !(((jsSlice p (LIBS_DIR.length + 1)).toList).contains '/')
    && jsEndsWith p ".jar"

/-- The stale entries the garbage collector will delete: `.jar` files of
the libs directory not recorded in the `jars` set. -/
def gcCandidates (w : World) (jars : List String) : List String :=
  (w.files.map (fun e => e.1)).filter (fun p => isLibsDirJar p && !(jars.contains p))

def gcRemoveAll : List String → M Unit
  | [] => pure ()
  | p :: rest => do
    removeF p
    gcRemoveAll rest

/-- Garbage collection of stale artifacts (mod.ts 820–830). -/
def gcLibs (jars : List String) : M Unit := do
  let w ← getW
  gcRemoveAll (gcCandidates w jars)

/-- `installDependencies(project, force, forcePlatform)` returning the
`jars` set of paths touched by the pass (the source keeps it in a local
`Set`; it is returned here so that theorems can speak about it). -/
def installDependenciesCore (ext : Oracles) (proj : Project)
    (force forcePlatform : Bool) : M (List String) := do
  let pv ← liftE (getActivePlatform proj)
  installPlatformStep ext pv.1 pv.2 (platformJarPath pv) forcePlatform
  let jarsF ← processDeps ext proj force proj.dependencies [platformJarPath pv]
  gcLibs jarsF
  pure jarsF

/-- `installDependencies` as in the source (result discarded). -/
def installDependencies (ext : Oracles) (proj : Project)
    (force forcePlatform : Bool) : M Unit := do
  let _ ← installDependenciesCore ext proj force forcePlatform
  pure ()

-- ––––– manifest merging (mod.ts 334–358, 49–63) –––––

/-- `DEFAULT_PLUGIN_YML` after `trimObject`: `trimObject` drops only
`undefined` fields, so `authors` survives exactly when the project declares
it, while the always-present scalar strings survive even when empty;
`registries` is `project.registries || []`. -/
def trimmedDefaults (proj : Project) : PluginYaml :=
  { name := some proj.name, version := some proj.version, main := some proj.main,
    description := some proj.description, author := none, authors := proj.authors,
    dependencies := none, registries := some (proj.registries.getD []),
    api_version := none }

/-- `deepMerge` on a scalar field: a key present in the defaults record
overwrites the fragment's value. -/
def mergeScalar (frag defv : Option String) : Option String :=
  match defv with
  | some d => some d
  | none => frag

/-- `deepMerge(..., { arrays: "merge" })` on an array field: both present
concatenates with the first record's elements first. -/
def mergeArray (frag defv : Option (List String)) : Option (List String) :=
  match frag, defv with
  | some f, some d => some (f ++ d)
  | some f, none => some f
  | none, some d => some d
  | none, none => none

/-- mod.ts 350–354: `const singleAuthor = parsedYaml?.author; delete
parsedYaml.author; parsedYaml.authors = parsedYaml.authors || []; if
(singleAuthor) parsedYaml.authors.unshift(singleAuthor);`. -/
def foldAuthor (frag : PluginYaml) : List String :=
  let base := frag.authors.getD []
  match frag.author with
  | some a => if a == "" then base else a :: base
  | none => base

/-- The manifest merge of `buildProject` (mod.ts 334–358): author folding,
then `deepMerge(parsedYaml, trimObject(DEFAULT_PLUGIN_YML), { arrays:
"merge" })`. -/
def mergeManifest (frag : PluginYaml) (proj : Project) : PluginYaml :=
  let frag₁ : PluginYaml := { frag with author := none, authors := some (foldAuthor frag) }
  let defs := trimmedDefaults proj
  { name := mergeScalar frag₁.name defs.name,
    version := mergeScalar frag₁.version defs.version,
    main := mergeScalar frag₁.main defs.main,
    description := mergeScalar frag₁.description defs.description,
    author := mergeScalar frag₁.author defs.author,
    authors := mergeArray frag₁.authors defs.authors,
    dependencies := mergeScalar frag₁.dependencies defs.dependencies,
    registries := mergeArray frag₁.registries defs.registries,
    api_version := mergeScalar frag₁.api_version defs.api_version }

-- ––––– the build pipeline (mod.ts 303–475, 948–993) –––––

/-- `getClassName` (mod.ts 126–131). -/
def getClassName (proj : Project) : String :=
  if proj.main == "" then "Main" else (jsSplit proj.main '.').getLastD "Main"

/-- `getPackageName` (mod.ts 133–137). -/
def getPackageName (proj : Project) : String :=
  if proj.main == "" then "com.example"
  else String.intercalate "." (jsSplit proj.main '.').dropLast

/-- `renameContent` (mod.ts 139–146). -/
def renameContent (content : String) (proj : Project) : String :=
  jsReplaceAll (jsReplaceAll (jsReplaceAll (jsReplaceAll (jsReplaceAll content
    "$__PROJECT_NAME__$" proj.name)
    "$__PROJECT_VERSION__$" proj.version)
    "$__PROJECT_MAIN_CLASS__$" (getClassName proj))
    "$__PROJECT_DESCRIPTION__$" proj.description)
    "$__PROJECT_PACKAGE_NAME__$" (getPackageName proj)

/-- The resource-copy loop of `buildProject` (mod.ts 311–332): read each
declared resource, apply template substitution, write it under the build
directory; any failure is rethrown wrapped in the resource's name. -/
def copyResources (proj : Project) : List (String × String) → M Unit
  | [] => pure ()
  | (resource, relPath) :: rest => do
    catchM
      (do
        let d ← readF relPath
        match d with
        | FData.text content => do
          mkdirF (dirnameStr (BUILD_DIR ++ "/" ++ resource))
          writeF (BUILD_DIR ++ "/" ++ resource) (FData.text (renameContent content proj))
        | _ => mthrow ("not a text file: " ++ relPath))
      (fun e =>
        mthrow ("Failed to copy resource " ++ resource ++ " from " ++ relPath ++ ": "
          ++ (jsSplit e ':').getD 0 ""))
    copyResources proj rest

/-- mod.ts 335–337: the declared resource whose normalized output path is
`plugin.yml`, as its source path. -/
def findPluginYml (proj : Project) : Option String :=
  (proj.resources.find? (fun e => e.1 == "plugin.yml")).map (fun e => e.2)

/-- The per-dependency shading arguments (mod.ts 361–398): the jar path to
inspect together with the exclude/include pattern lists derived from the
shading rule (default `{ include: ['plugin.yml'] }`). -/
def shadingExclude (sh : Option Shading) : List String :=
  "META-INF/**/*" :: ((sh.map (fun s => s.exclude.getD [])).getD [])

def shadingInclude (sh : Option Shading) : List String :=
  match sh with
  | some s =>
    match s.includeList with
    | some inc => "plugin.yml" :: inc
    | none => ["plugin.yml", "**/*"]
  | none => "plugin.yml" :: ["plugin.yml"]

/-- The jar reference recorded for a dependency entry (mod.ts 363–397):
the resolved path for file and registry entries, the raw specifier string
for maven entries (the source's `return [key, version, ...]`). -/
def depJarRef (kv : String × String) : String :=
  if jsStartsWith kv.2 "file:" then jsSlice kv.2 5
  else if jsStartsWith kv.2 "maven:" then kv.2
  else LIBS_DIR ++ "/" ++ kv.1 ++ "-" ++ kv.2 ++ ".jar"

/-- The jar path opened for a dependency entry; maven entries fail with the
format error when malformed (mod.ts 375–378). -/
def depJarPath (kv : String × String) : Except String String :=
  if jsStartsWith kv.2 "file:" then Except.ok (jsSlice kv.2 5)
  else if jsStartsWith kv.2 "maven:" then
    let parts := parseMavenInstall kv.2
    if parts.getD 0 "" == "" || parts.getD 1 "" == "" || parts.getD 2 "" == "" then
      Except.error ("Invalid Maven dependency format: " ++ kv.2
        ++ ". Expected format: \"maven:groupId:artifactId@versionId\".")
    else Except.ok (LIBS_DIR ++ "/" ++ parts.getD 1 "" ++ "-" ++ parts.getD 2 "" ++ ".jar")
  else Except.ok (LIBS_DIR ++ "/" ++ kv.1 ++ "-" ++ kv.2 ++ ".jar")

/-- The dependency-inspection map of mod.ts 361–398: for each declared
dependency, open its jar and filter it by the shading patterns.  The
source issues these reads with `Promise.all`; the reads have no data
dependency, so sequencing them preserves the result. -/
def readDependencyJars (ext : Oracles) (proj : Project) :
    List (String × String) → M (List (String × String × List (String × String)))
  | [] => pure []
  | kv :: rest => do
    let path ← liftE (depJarPath kv)
    let sh := (proj.shading.find? (fun e => e.1 == kv.1)).map (fun e => e.2)
    let obj ← jarToObject path (shadingExclude sh) (some (shadingInclude sh))
    let tail ← readDependencyJars ext proj rest
    pure ((kv.1, depJarRef kv, obj) :: tail)

/-- Write every filtered entry of a shaded jar into the build directory
(mod.ts 407–414). -/
def writeShadedFiles : List (String × String) → M Unit
  | [] => pure ()
  | (file, content) :: rest => do
    mkdirF (dirnameStr (BUILD_DIR ++ "/" ++ file))
    writeF (BUILD_DIR ++ "/" ++ file) (FData.text content)
    writeShadedFiles rest

/-- The shading/name-collection loop of mod.ts 400–423: write shaded
entries for dependencies with an explicit shading rule, and accumulate the
dependency names discovered in each jar's own `plugin.yml`. -/
def shadeAndCollect (ext : Oracles) (proj : Project) :
    List (String × String × List (String × String)) → List String → M (List String)
  | [], names => pure names
  | (key, jarRef, jarObject) :: rest, names => do
    let parsed ← liftE (ext.yamlParse ((objLookup jarObject "plugin.yml").getD ""))
    let explicitSh := (proj.shading.find? (fun e => e.1 == key)).isSome
    (if explicitSh then
        writeShadedFiles jarObject
      else pure ())
    let names₁ :=
      if jsTruthy parsed.name then
        let nm := jsTrim (optStr parsed.name)
        if names.contains nm then names else names ++ [nm]
      else names
    shadeAndCollect ext proj rest names₁

/-- mod.ts 400: the dependency names already declared by the fragment,
`new Set(pluginYamlObject.dependencies?.split(",").map(v => v.trim()) ||
[])`. -/
def fragmentDependencyNames (merged : PluginYaml) : List String :=
  match merged.dependencies with
  | some s => jsSetList ((jsSplit s ',').map jsTrim)
  | none => []

/-- The classpath `lib` entries of `generateClassPath` (mod.ts 181–216)
after the XML round trip of mod.ts 432–433: the platform jar followed by
one entry per declared dependency; a malformed maven specifier throws. -/
def depClassPath : List (String × String) → Except String (List String)
  | [] => Except.ok []
  | kv :: rest =>
    match (if jsStartsWith kv.2 "file:" then Except.ok (jsSlice kv.2 5)
      else if jsStartsWith kv.2 "maven:" then
        let parts := parseMavenInstall kv.2
        if parts.getD 0 "" == "" || parts.getD 1 "" == "" || parts.getD 2 "" == "" then
          Except.error ("Invalid Maven dependency format: " ++ kv.2
            ++ ". Expected format: \"maven:groupId:artifactId:versionId\".")
        else Except.ok (LIBS_DIR ++ "/" ++ parts.getD 1 "" ++ "-" ++ parts.getD 2 "" ++ ".jar")
      else Except.ok (LIBS_DIR ++ "/" ++ kv.1 ++ "-" ++ kv.2 ++ ".jar")) with
    | Except.error e => Except.error e
    | Except.ok p =>
      match depClassPath rest with
      | Except.error e => Except.error e
      | Except.ok ps => Except.ok (p :: ps)

/-- `walk(join(ROOT_DIR, "src"), { exts: ["java"] })`: every file under the
source tree with the `.java` extension. -/
def walkJava (w : World) : List String :=
  (w.files.map (fun e => e.1)).filter
    (fun p => jsStartsWith p "src/" && jsEndsWith p ".java")

/-- `buildProject(project)` (mod.ts 303–475).  Compiled class files under
the build directory are not modelled individually: the final archive is an
opaque payload produced by the archiver oracle from the build tree.  The
returned path is the distributable's location. -/
def buildProject (ext : Oracles) (proj : Project) : M String := do
  let pv ← liftE (getActivePlatform proj)
  removeTreeF BUILD_DIR
  mkdirF BUILD_DIR
  copyResources proj proj.resources
  let parsedYaml ←
    match findPluginYml proj with
    | some rel => do
      let d ← readF rel
      match d with
      | FData.text s => liftE (ext.yamlParse s)
      | _ => mthrow ("not a text file: " ++ rel)
    | none => pure emptyPluginYaml
  let merged := mergeManifest parsedYaml proj
  let depJars ← readDependencyJars ext proj proj.dependencies
  let names ← shadeAndCollect ext proj depJars (fragmentDependencyNames merged)
  writeF (BUILD_DIR ++ "/plugin.yml") (FData.text (ext.yamlDump merged names pv.2))
  let cpDeps ← liftE (depClassPath proj.dependencies)
  let cp := (LIBS_DIR ++ "/" ++ pv.1 ++ "-" ++ pv.2 ++ ".jar") :: cpDeps
  let w ← getW
  let files := walkJava w
  if files.isEmpty then mthrow "No Java source files found in src/ directory"
  else
    match ext.javac files cp with
    | Except.error stderr => mthrow ("Failed to compile Java sources: " ++ stderr)
    | Except.ok _ => do
      removeTreeF DIST_DIR
      mkdirF DIST_DIR
      match ext.jarTool (proj.name ++ "-" ++ proj.version) with
      | Except.error stderr => mthrow ("Failed to create JAR file: " ++ stderr)
      | Except.ok payload => do
        writeF (DIST_DIR ++ "/" ++ proj.name ++ "-" ++ proj.version ++ ".jar")
          (FData.bin payload)
        pure (DIST_DIR ++ "/" ++ proj.name ++ "-" ++ proj.version ++ ".jar")

/-- The `build` subcommand (mod.ts 948–993) without a `--force` flag:
require the project file, create the build and dist directories, install
dependencies, then build. -/
def buildCommand (ext : Oracles) : M String := do
  let ex ← statF CONFIG_FILE
  if !ex then
    mthrow ("Project file not found at " ++ CONFIG_FILE ++ ". Please run pluggy init first.")
  else do
    let d ← readF CONFIG_FILE
    match d with
    | FData.config proj => do
      mkdirF BUILD_DIR
      mkdirF DIST_DIR
      let _ ← installDependenciesCore ext proj false false
      buildProject ext proj
    | _ => mthrow "Invalid project file"

-- ––––– specification helpers used by the theorems –––––

/-- The libs-directory jar path a successful `processDep` iteration records
in the `jars` set (and ensures exists): nothing for an empty key, the
maven artifact path, the local file path, or the registry jar path. -/
def depTouch (kv : String × String) : List String :=
  if kv.1 == "" then []
  else if jsStartsWith kv.2 "maven:" then
    if (parseMavenInstall kv.2).getD 0 "" == "" || (parseMavenInstall kv.2).getD 1 "" == ""
        || (parseMavenInstall kv.2).getD 2 "" == "" then []
    else [mavenJarPathOf kv.2]
  else if jsStartsWith kv.2 "file:" then [jsSlice kv.2 5]
  else [registryJarPathOf kv]

/-- A dependency entry that cannot fail on its format alone (maven entries
must parse into three non-empty parts). -/
def depWF (kv : String × String) : Bool :=
  if kv.1 == "" then true
  else if jsStartsWith kv.2 "maven:" then
    !((parseMavenInstall kv.2).getD 0 "" == "" || (parseMavenInstall kv.2).getD 1 "" == ""
      || (parseMavenInstall kv.2).getD 2 "" == "")
  else true

/-- The `jars` set an installation pass over `deps` accumulates, starting
from the platform jar. -/
def jarsSpec (platformPath : String) (deps : List (String × String)) : List String :=
  deps.foldl (fun acc kv => addJars acc (depTouch kv)) [platformPath]

/-- The files of a world outside a path scope (used to state that an
operation only writes or removes inside the scope). -/
def filesOutside (scope : String → Bool) (w : World) : List (String × FData) :=
  w.files.filter (fun e => !(scope e.1))

/-- An effect that creates, overwrites or removes files only at paths
inside `scope` (on every path, success or failure). -/
def Scoped {α : Type} (scope : String → Bool) (m : M α) : Prop :=
  ∀ w : World, filesOutside scope ((m w).2) = filesOutside scope w

/-- An effect that never changes the world at all. -/
def WorldConst {α : Type} (m : M α) : Prop := ∀ w : World, (m w).2 = w

/-- Paths under the libs directory. -/
def libsScope (p : String) : Bool := jsStartsWith p (LIBS_DIR ++ "/")

/-- Paths under the build or libs directory (everything the build pipeline
touches before the compiler gate). -/
def binLibsScope (p : String) : Bool :=
  jsStartsWith p (BUILD_DIR ++ "/") || jsStartsWith p (LIBS_DIR ++ "/")

/-- The first entry of a platform list that belongs to the known-resolvable
set - the selection the spec describes for `getActivePlatform`. -/
def firstResolvablePlatform (platforms : List String) : Option String :=
  platforms.find? (fun p => PLATFORMS.contains p)

/-- The survival predicate of one `jarToObject` entry: not a directory, not
excluded, and (when an include list is present) included. -/
def jarKeep (exclude : List String) (includePats : Option (List String))
    (e : String × String) : Bool :=
  !(jsEndsWith e.1 "/") && !(exclude.any (fun pat => globMatch pat e.1)) &&
    (match includePats with
     | some inc => inc.any (fun pat => globMatch pat e.1)
     | none => true)

-- ––––– concrete instances used by the claim theorems –––––

/-- A release version of a registry package, compatible with paper and
Minecraft 1.21.7, carrying a primary file. -/
def exVersion : MVersion :=
  { version_number := "1.0.0", version_type := "release", loaders := ["paper"],
    game_versions := ["1.21.7"],
    files := [{ filename := "worldedit.jar", url := "https://cdn/worldedit.jar", primary := true }] }

def exMProject : MProject := { id := "we", title := "WorldEdit", versions := [exVersion] }

/-- Oracles for the concrete scenarios: one Modrinth package, its file
download, and a platform snapshot for 1.21.7; YAML parsing yields an empty
fragment, and the toolchain succeeds. -/
def exOracles : Oracles :=
  { modrinth := fun i => if i == "worldedit" then some exMProject else none,
    fetchUrl := fun u => if u == "https://cdn/worldedit.jar" then some 42 else none,
    snapshot := fun _ v => if v == "1.21.7" then some 7 else none,
    yamlParse := fun _ => Except.ok emptyPluginYaml,
    yamlDump := fun _ _ _ => "manifest",
    javac := fun _ _ => Except.ok (),
    jarTool := fun _ => Except.ok 99 }

/-- A project declaring the registry dependency `worldedit` pinned to
1.0.0, compatible with paper / 1.21.7. -/
def exProject : Project :=
  { name := "p", version := "0.1.0", main := "com.example.Main", description := "d",
    authors := none, resources := [], dependencies := [("worldedit", "1.0.0")],
    shading := [], compatVersions := ["1.21.7"], compatPlatforms := ["paper"],
    registries := none }

/-- The same project with an empty dependency map. -/
def exProjectNoDeps : Project := { exProject with dependencies := [] }

def emptyWorld : World := { files := [], dirs := [], trace := [] }

/-- The world produced by installing `exProject`'s dependencies into the
empty world: the platform jar and the worldedit jar, with the full
operation trace. -/
def c3World₁ : World :=
  { files := [("libs/paper-1.21.7.jar", FData.bin 7),
              ("libs/worldedit-1.0.0.jar", FData.bin 42)],
    dirs := ["libs"],
    trace := ["GET snapshot https://repo.papermc.io/repository/maven-snapshots/io/papermc/paper/paper-api 1.21.7",
              "write libs/paper-1.21.7.jar", "GET modrinth project worldedit",
              "GET https://cdn/worldedit.jar", "write libs/worldedit-1.0.0.jar"] }

/-- The starting world of the zero-source build scenario: a project file,
the platform jar already installed, no src/ tree and no dist directory. -/
def c7World₀ : World :=
  { files := [("plugin.json", FData.config exProjectNoDeps),
              ("libs/paper-1.21.7.jar", FData.bin 7)],
    dirs := ["libs"],
    trace := [] }

/-- Starting from any world whose files outside `scope` agree with `w₀`'s,
the effect fails (returns an error) and still leaves the files outside
`scope` agreeing with `w₀`'s. -/
def FailsOutside {α : Type} (scope : String → Bool) (m : M α) (w₀ : World) : Prop :=
  ∀ w, filesOutside scope w = filesOutside scope w₀ →
    (∃ e, (m w).1 = Except.error e) ∧
    filesOutside scope ((m w).2) = filesOutside scope w₀

-- ═════ THEOREMS ═════

-- ––––– basic monad lemmas –––––

theorem bind_def {α β : Type} (x : M α) (f : α → M β) (w : World) :
    (x >>= f) w =
      match x w with
      | (Except.ok a, w₁) => f a w₁
      | (Except.error e, w₁) => (Except.error e, w₁) := rfl

theorem pure_def {α : Type} (a : α) (w : World) : (pure a : M α) w = (Except.ok a, w) := rfl

theorem bind_of_ok {α β : Type} {x : M α} {w w₁ : World} {a : α} (f : α → M β)
    (h : x w = (Except.ok a, w₁)) : (x >>= f) w = f a w₁ := by
  rw [bind_def, h]

theorem bind_of_error {α β : Type} {x : M α} {w w₁ : World} {e : String} (f : α → M β)
    (h : x w = (Except.error e, w₁)) : (x >>= f) w = (Except.error e, w₁) := by
  rw [bind_def, h]

-- ––––– string prefix lemmas –––––

theorem prefixes_share_head {c d : Char} {cs ds l : List Char}
    (h1 : (c :: cs).isPrefixOf l = true) (h2 : (d :: ds).isPrefixOf l = true) : c = d := by
  cases l with
  | nil => simp [List.isPrefixOf] at h1
  | cons e es =>
    simp only [List.isPrefixOf, Bool.and_eq_true, beq_iff_eq] at h1 h2
    exact h1.1.trans h2.1.symm

theorem coordinate_not_local {s : String} (h : isCoordinateSpec s = true) :
    isLocalSpec s = false := by
  unfold isCoordinateSpec jsStartsWith at h
  have hm : "maven:".toList = ['m', 'a', 'v', 'e', 'n', ':'] := rfl
  rw [hm] at h
  rw [Bool.eq_false_iff]
  intro hl
  unfold isLocalSpec jsStartsWith at hl
  simp only [Bool.or_eq_true] at hl
  have hf : "file:".toList = ['f', 'i', 'l', 'e', ':'] := rfl
  have hs : "/".toList = ['/'] := rfl
  have hd : "./".toList = ['.', '/'] := rfl
  have hdd : "../".toList = ['.', '.', '/'] := rfl
  rcases hl with ((h1 | h1) | h1) | h1
  · rw [hf] at h1; exact absurd (prefixes_share_head h h1) (by decide)
  · rw [hs] at h1; exact absurd (prefixes_share_head h h1) (by decide)
  · rw [hd] at h1; exact absurd (prefixes_share_head h h1) (by decide)
  · rw [hdd] at h1; exact absurd (prefixes_share_head h h1) (by decide)

/-- C9: classification of a dependency specifier string is total and
unambiguous: the if/else chain of `addDependency` assigns every string
exactly one of the three classes from its prefix shape alone; the
coordinate and local prefix families are disjoint, and registry is
exactly the complement.  The four example specifiers classify as the
claim states. -/
theorem c9_classification_total_unambiguous :
    classifySpec "foo" = DepClass.registry ∧
    classifySpec "maven:g:a@1.0" = DepClass.coordinate ∧
    classifySpec "./libs/x.jar" = DepClass.localFile ∧
    classifySpec "file:./libs/x.jar" = DepClass.localFile ∧
    ∀ s : String,
      (classifySpec s = DepClass.coordinate ↔ isCoordinateSpec s = true) ∧
      (classifySpec s = DepClass.localFile ↔ isLocalSpec s = true) ∧
      (classifySpec s = DepClass.registry ↔
        (isCoordinateSpec s = false ∧ isLocalSpec s = false)) := by
  refine ⟨by decide, by decide, by decide, by decide, fun s => ?_⟩
  by_cases hs : s = ""
  · subst hs
    refine ⟨?_, ?_, ?_⟩ <;> simp [classifySpec, isCoordinateSpec, isLocalSpec, jsStartsWith,
      jsTruthy, List.isPrefixOf]
  · have ht : jsTruthy (some s) = true := by
      simp [jsTruthy, hs]
    unfold classifySpec
    rw [ht]
    simp only [Bool.true_and]
    rcases hc : isCoordinateSpec s with _ | _
    · rcases hl : isLocalSpec s with _ | _
      · simp [hc, hl]
      · simp [hc, hl]
    · have hl := coordinate_not_local hc
      simp [hc, hl]

-- ––––– C5: archive inspection –––––

theorem insertJS_keys (l : List (String × String)) (k v : String) :
    (insertJS l k v).map Prod.fst =
      if (l.map Prod.fst).contains k then l.map Prod.fst else l.map Prod.fst ++ [k] := by
  have hany : (l.any (fun e => e.1 == k)) = (l.map Prod.fst).contains k := by
    induction l with
    | nil => rfl
    | cons e rest ih =>
      have he : (e.1 == k) = (k == e.1) := by
        by_cases h : e.1 = k
        · simp [h]
        · simp [h, Ne.symm h]
      simp only [List.any_cons, List.map_cons, List.contains_cons, ih, he]
  have hmap : (l.map (fun e => if e.1 == k then (k, v) else e)).map Prod.fst
      = l.map Prod.fst := by
    rw [List.map_map]
    have hfun : (Prod.fst ∘ fun (e : String × String) => if e.1 == k then (k, v) else e)
        = Prod.fst := by
      funext e
      by_cases h : e.1 = k
      · simp [Function.comp, h]
      · simp [Function.comp, h]
    rw [hfun]
  unfold insertJS
  rw [hany]
  by_cases hc : ((l.map Prod.fst).contains k) = true
  · simp only [hc, if_true, hmap]
  · simp only [Bool.not_eq_true] at hc
    simp only [hc, Bool.false_eq_true, if_false, List.map_append]
    rfl

theorem jarFilterStep_eq (exclude : List String) (includePats : Option (List String))
    (acc : List (String × String)) (e : String × String) :
    jarFilterStep exclude includePats acc e =
      if jarKeep exclude includePats e then insertJS acc (basename e.1) e.2 else acc := by
  unfold jarFilterStep jarKeep
  rcases hdir : jsEndsWith e.1 "/" with _ | _
  · rcases hexc : exclude.any (fun pat => globMatch pat e.1) with _ | _
    · cases includePats with
      | none => simp [hdir, hexc]
      | some inc =>
        rcases hinc : inc.any (fun pat => globMatch pat e.1) with _ | _ <;>
          simp [hdir, hexc, hinc]
    · simp [hdir, hexc]
  · simp [hdir]

theorem jarFilter_keys_aux (exclude : List String) (includePats : Option (List String))
    (entries : List (String × String)) (acc : List (String × String)) :
    (entries.foldl (jarFilterStep exclude includePats) acc).map Prod.fst =
      ((entries.filter (jarKeep exclude includePats)).map (fun e => basename e.1)).foldl
        (fun a x => if a.contains x then a else a ++ [x]) (acc.map Prod.fst) := by
  induction entries generalizing acc with
  | nil => rfl
  | cons e rest ih =>
    simp only [List.foldl_cons, List.filter_cons]
    rw [jarFilterStep_eq]
    rcases hk : jarKeep exclude includePats e with _ | _
    · simp only [hk, if_false, Bool.false_eq_true, ih]
    · simp only [hk, if_true, ih, List.map_cons, List.foldl_cons, insertJS_keys]

/-- C5 counterexample: the mapping the archive inspector produces is keyed
by entry basenames, not full entry names: on the archive of the claim the
keys are `plugin.yml` and `Foo.class`, and the claimed key `com/Foo.class`
is absent. -/
theorem c5_counterexample :
    (jarFilter [("META-INF/MANIFEST.MF", "mf"), ("plugin.yml", "py"), ("com/Foo.class", "fc")]
        ["META-INF/**/*"] (some ["plugin.yml", "**/*"])).map Prod.fst
      = ["plugin.yml", "Foo.class"] ∧
    ¬ ("com/Foo.class" ∈ (jarFilter
        [("META-INF/MANIFEST.MF", "mf"), ("plugin.yml", "py"), ("com/Foo.class", "fc")]
        ["META-INF/**/*"] (some ["plugin.yml", "**/*"])).map Prod.fst) := by
  constructor
  · rfl
  · decide

/-- C5 (amended): archive inspection maps each surviving entry's base name
(final path segment) to its content, skipping directory entries; exclusion
patterns are checked before inclusion patterns and an absent include list
keeps everything not excluded (`jarKeep`); on the claim's archive the
result holds exactly the entries `plugin.yml` and `com/Foo.class`, stored
under the keys `plugin.yml` and `Foo.class`. -/
theorem c5_basename_keyed_mapping :
    (∀ entries exclude includePats,
      (jarFilter entries exclude includePats).map Prod.fst
        = jsSetList ((entries.filter (jarKeep exclude includePats)).map (fun e => basename e.1))) ∧
    jarFilter [("META-INF/MANIFEST.MF", "mf"), ("plugin.yml", "py"), ("com/Foo.class", "fc")]
        ["META-INF/**/*"] (some ["plugin.yml", "**/*"])
      = [("plugin.yml", "py"), ("Foo.class", "fc")] := by
  constructor
  · intro entries exclude includePats
    unfold jarFilter jsSetList
    exact jarFilter_keys_aux exclude includePats entries []
  · rfl

-- ––––– C2: active platform –––––

/-- C2: `getActivePlatform` does not tolerate an unrecognized platform
earlier in the list: the `find` predicate calls `checkPlatform`, which
throws on the unknown identifier "bukkit" (an identifier the tool's own
default configuration contains), instead of skipping it and selecting
"paper", the first entry of the known-resolvable set as the claim and
spec describe. -/
theorem c2_unrecognized_platform_throws :
    getActivePlatform { exProject with compatPlatforms := ["bukkit", "paper"] }
      = Except.error "Invalid platform: bukkit. Supported platforms are 'spigot', 'paper'." ∧
    firstResolvablePlatform ["bukkit", "paper"] = some "paper" := by
  constructor
  · rfl
  · rfl

-- ––––– C6: manifest merge –––––

/-- C6 counterexample: `trimObject` drops only `undefined` fields, not
empty ones: a project whose name is the empty string produces the default
`name: ""`, which overwrites the fragment's explicit `name: "a"` —
contradicting "empty/undefined default fields are dropped before merging
so they never overwrite an explicit fragment value". -/
theorem c6_counterexample :
    (mergeManifest { emptyPluginYaml with name := some "a" }
        { exProject with name := "" }).name = some "" ∧
    some "" ≠ some "a" := by
  constructor
  · rfl
  · decide

/-- C6 (amended): manifest merge is right-biased on scalar fields — the
computed default always overwrites the fragment, even when the default is
the empty string (trimming drops only `undefined` fields); array fields
concatenate with fragment-declared elements first (the claim's example
merges to `{name:"b", authors:["X","Y"]}`); a singular `author` field is
folded in as the first element of `authors` and then removed. -/
theorem c6_merge_rightbiased_concat :
    (mergeManifest { emptyPluginYaml with name := some "a", authors := some ["X"] }
        { exProject with name := "b", authors := some ["Y"] }).name = some "b" ∧
    (mergeManifest { emptyPluginYaml with name := some "a", authors := some ["X"] }
        { exProject with name := "b", authors := some ["Y"] }).authors = some ["X", "Y"] ∧
    (mergeManifest { emptyPluginYaml with author := some "Solo", authors := some ["X"] }
        { exProject with authors := some ["Y"] }).authors = some ["Solo", "X", "Y"] ∧
    ∀ (frag : PluginYaml) (proj : Project),
      (mergeManifest frag proj).name = some proj.name ∧
      (mergeManifest frag proj).version = some proj.version ∧
      (mergeManifest frag proj).description = some proj.description ∧
      (mergeManifest frag proj).authors = some (foldAuthor frag ++ proj.authors.getD []) ∧
      (mergeManifest frag proj).author = none := by
  refine ⟨rfl, rfl, rfl, fun frag proj => ?_⟩
  refine ⟨rfl, rfl, rfl, ?_, rfl⟩
  unfold mergeManifest mergeArray trimmedDefaults
  cases proj.authors with
  | none => simp
  | some l => simp

-- ––––– C8: version choice by declaration order, not similarity –––––

theorem lev_eq_zero_iff (xs ys : List Char) : lev xs ys = 0 ↔ xs = ys := by
  induction xs generalizing ys with
  | nil =>
    cases ys with
    | nil => simp [lev]
    | cons y ys => simp [lev]
  | cons x xs ih =>
    cases ys with
    | nil => simp [lev]
    | cons y ys =>
      by_cases hxy : x = y
      · subst hxy
        simp [lev, ih]
      · simp [lev, hxy]

theorem levenshteinDistance_eq_zero_iff (a b : String) :
    levenshteinDistance a b = 0 ↔ a = b := by
  unfold levenshteinDistance
  rw [lev_eq_zero_iff]
  constructor
  · intro h
    cases a
    cases b
    simp only [String.toList] at h
    exact congrArg String.mk h
  · intro h
    rw [h]

theorem jsInsertLev_append (x : String) (acc : List String) (h : ∀ y ∈ acc, x ≠ y) :
    jsInsertLev x acc = acc ++ [x] := by
  induction acc with
  | nil => rfl
  | cons y ys ih =>
    have hxy : ¬ levenshteinDistance x y = 0 := by
      rw [levenshteinDistance_eq_zero_iff]
      exact h y (List.mem_cons_self y ys)
    simp only [jsInsertLev, hxy, if_false]
    rw [ih (fun z hz => h z (List.mem_cons_of_mem y hz))]
    simp

theorem jsSortLev_nodup (l : List String) (h : l.Nodup) : jsSortLev l = l := by
  suffices haux : ∀ acc : List String, (acc ++ l).Nodup →
      l.foldl (fun a x => jsInsertLev x a) acc = acc ++ l by
    simpa [jsSortLev] using haux [] (by simpa using h)
  clear h
  induction l with
  | nil =>
    intro acc _
    simp
  | cons x xs ih =>
    intro acc hnd
    simp only [List.foldl_cons]
    have hdisj : acc.Disjoint (x :: xs) := (List.nodup_append.mp hnd).2.2
    have hx : ∀ y ∈ acc, x ≠ y := by
      intro y hy heq
      exact hdisj hy (heq ▸ List.mem_cons_self x xs)
    rw [jsInsertLev_append x acc hx]
    have hnd₁ : (acc ++ [x] ++ xs).Nodup := by
      simpa [List.append_assoc] using hnd
    rw [ih (acc ++ [x]) hnd₁, List.append_assoc]
    simp

theorem perm_any_eq {l₁ l₂ : List String} (hp : l₁.Perm l₂) (f : String → Bool) :
    l₁.any f = l₂.any f := by
  cases h1 : l₁.any f <;> cases h2 : l₂.any f
  · rfl
  · rw [List.any_eq_true] at h2
    obtain ⟨x, hx, hfx⟩ := h2
    have : l₁.any f = true := List.any_eq_true.mpr ⟨x, hp.mem_iff.mpr hx, hfx⟩
    rw [h1] at this
    exact absurd this (by decide)
  · rw [List.any_eq_true] at h1
    obtain ⟨x, hx, hfx⟩ := h1
    have : l₂.any f = true := List.any_eq_true.mpr ⟨x, hp.mem_iff.mp hx, hfx⟩
    rw [h2] at this
    exact absurd this (by decide)
  · rfl

theorem selectVersionAdd_game_perm (reqVer : Option String) (force beta already : Bool)
    (plats vers gs gs' : List String) (v : MVersion) (rest : List MVersion)
    (hp : gs.Perm gs') :
    (selectVersionAdd reqVer force beta already plats vers
        ({ v with game_versions := gs } :: rest)).map MVersion.version_number
      = (selectVersionAdd reqVer force beta already plats vers
          ({ v with game_versions := gs' } :: rest)).map MVersion.version_number := by
  have hany : (gs.any (fun g => vers.contains g)) = (gs'.any (fun g => vers.contains g)) :=
    perm_any_eq hp _
  simp only [selectVersionAdd, hany]
  repeat' split
  all_goals simp

/-- C8 counterexample: two declarations of the same two-element game
version set produce different "active" versions, so the choice is a
function of declaration position, not of any ordering (edit-distance or
otherwise) of the version strings themselves: the comparator
`(a, b) => levenshteinDistance(a, b)` is never negative, so the sort
leaves the declared order in place and `[0]` is simply the first declared
entry. -/
theorem c8_counterexample :
    activeGameVersion ["1.9", "1.21.7"] = "1.9" ∧
    activeGameVersion ["1.21.7", "1.9"] = "1.21.7" ∧
    ¬ (activeGameVersion ["1.9", "1.21.7"] = activeGameVersion ["1.21.7", "1.9"]) := by
  have h1 : ¬ levenshteinDistance "1.21.7" "1.9" = 0 := by
    rw [levenshteinDistance_eq_zero_iff]
    decide
  have h2 : ¬ levenshteinDistance "1.9" "1.21.7" = 0 := by
    rw [levenshteinDistance_eq_zero_iff]
    decide
  refine ⟨?_, ?_, ?_⟩
  · simp [activeGameVersion, jsSortLev, jsInsertLev, h1, jsHeadOrUndefined]
  · simp [activeGameVersion, jsSortLev, jsInsertLev, h2, jsHeadOrUndefined]
  · simp [activeGameVersion, jsSortLev, jsInsertLev, h1, h2, jsHeadOrUndefined]

/-- C8 (amended): the "active" game version is the head of the list after
a sort whose comparator is the (never negative) edit distance — for a list
of pairwise-distinct versions the sort leaves the declared order in place,
so the choice follows declaration order, not an edit-distance or
semantic-version ordering of the version values; and the edit-distance
tie-break computed among a candidate's qualifying game versions during
dependency version selection does not influence which version is selected
(it feeds only a debug log): permuting a candidate's game-version list
never changes the selected version number. -/
theorem c8_declaration_order_not_similarity :
    (∀ l : List String, l.Nodup → activeGameVersion l = jsHeadOrUndefined l) ∧
    (∀ (proj : Project) (pv : String × String), getActivePlatform proj = Except.ok pv →
      pv.2 = activeGameVersion proj.compatVersions) ∧
    (∀ (reqVer : Option String) (force beta already : Bool)
        (plats vers gs gs' : List String) (v : MVersion) (rest : List MVersion),
      gs.Perm gs' →
      (selectVersionAdd reqVer force beta already plats vers
          ({ v with game_versions := gs } :: rest)).map MVersion.version_number
        = (selectVersionAdd reqVer force beta already plats vers
            ({ v with game_versions := gs' } :: rest)).map MVersion.version_number) := by
  refine ⟨?_, ?_, ?_⟩
  · intro l h
    unfold activeGameVersion
    rw [jsSortLev_nodup l h]
  · intro proj pv h
    unfold getActivePlatform at h
    cases hf : findActivePlatform proj.compatPlatforms with
    | error e =>
      rw [hf] at h
      exact absurd h (by simp)
    | ok o =>
      cases o with
      | none =>
        rw [hf] at h
        exact absurd h (by simp)
      | some platform =>
        rw [hf] at h
        simp only [Except.ok.injEq] at h
        rw [← h]
  · intro reqVer force beta already plats vers gs gs' v rest hp
    exact selectVersionAdd_game_perm reqVer force beta already plats vers gs gs' v rest hp

/-- Witness for the C8 theorem at a concrete pairwise-distinct list. -/
theorem c8_declaration_order_witness :
    activeGameVersion ["1.21.8", "1.21.1"] = jsHeadOrUndefined ["1.21.8", "1.21.1"] :=
  c8_declaration_order_not_similarity.1 ["1.21.8", "1.21.1"] (by decide)

-- ––––– C1: registry version selection –––––

/-- C1: the guard at mod.ts 615 compares every `version_number` against an
`undefined` requested version, so `addDependency` on a registry reference
with no requested version always throws "Version undefined ... not found"
before the selection loop runs — although the loop itself (modelled by
`selectVersionAdd`) would select the first compatible release version
exactly as the claim describes (second conjunct). -/
theorem c1_latest_version_guard_bug :
    (addDependency exOracles exProjectNoDeps "worldedit" none false false emptyWorld).1
      = Except.error
        "Version undefined of project worldedit not found on Modrinth. Available versions: 1.0.0" ∧
    selectVersionAdd none false false false ["paper"] ["1.21.7"] [exVersion]
      = some exVersion := by
  constructor
  · rfl
  · rfl

-- ––––– C10: addDependency is atomic on the project file –––––

theorem tryRegistries_run (ext : Oracles) (regs : List String) (ap : String) (w : World) :
    ∃ r w₁, tryRegistries ext regs ap w = (Except.ok r, w₁) ∧
      w₁.files = w.files ∧ w₁.dirs = w.dirs := by
  induction regs generalizing w with
  | nil => exact ⟨none, w, rfl, rfl, rfl⟩
  | cons reg rest ih =>
    unfold tryRegistries
    rw [bind_def]
    show ∃ r w₁,
      (match ext.fetchUrl (reg ++ ap) with
        | some payload => pure (some payload)
        | none => tryRegistries ext rest ap)
        { w with trace := w.trace ++ ["GET " ++ reg ++ ap] } = (Except.ok r, w₁) ∧
      w₁.files = w.files ∧ w₁.dirs = w.dirs
    cases ext.fetchUrl (reg ++ ap) with
    | some payload => exact ⟨some payload, _, rfl, rfl, rfl⟩
    | none =>
      obtain ⟨r, w₁, hrun, hf, hd⟩ := ih { w with trace := w.trace ++ ["GET " ++ reg ++ ap] }
      exact ⟨r, w₁, hrun, hf, hd⟩

theorem getModrinthProject_run (ext : Oracles) (id : String) (w : World) :
    ((getModrinthProject ext id w).2).files = w.files ∧
    ((getModrinthProject ext id w).2).dirs = w.dirs := by
  unfold getModrinthProject
  rw [bind_def]
  show (((match ext.modrinth id with
      | none => mthrow ("Failed to fetch project " ++ id ++ " from Modrinth")
      | some p =>
        if p.versions.isEmpty then
          mthrow ("No versions found for project " ++ id ++ " on Modrinth")
        else pure p) { w with trace := w.trace ++ ["GET modrinth project " ++ id] }).2).files
        = w.files ∧ _
  cases ext.modrinth id with
  | none => exact ⟨rfl, rfl⟩
  | some p =>
    by_cases hv : p.versions.isEmpty
    · simp only [hv, if_true]
      exact ⟨rfl, rfl⟩
    · simp only [hv, if_false]
      exact ⟨rfl, rfl⟩

theorem jarToObject_run (p : String) (exc : List String) (incp : Option (List String))
    (w : World) : ((jarToObject p exc incp w).2) = w := by
  unfold jarToObject readF
  rw [bind_def]
  cases fsLookup w p with
  | none => rfl
  | some d => cases d <;> rfl

/-- The complete branch analysis of `addDependency`: a failing call leaves
the file system untouched; a successful call performs exactly one write,
the rewritten project declaration, whose dependency map records the new
entry. -/
theorem addDependency_run (ext : Oracles) (proj : Project) (dep : String)
    (reqVer : Option String) (force beta : Bool) (w : World) :
    (∃ e w₁, addDependency ext proj dep reqVer force beta w = (Except.error e, w₁) ∧
      w₁.files = w.files) ∨
    (∃ p₁ w₁, addDependency ext proj dep reqVer force beta w = (Except.ok p₁, w₁) ∧
      w₁.files = (fsWrite w CONFIG_FILE (FData.config p₁)).files ∧
      ∃ k vv, p₁ = { proj with dependencies := insertJS proj.dependencies k vv }) := by
  unfold addDependency
  split_ifs with hcoord hfmt hlocal
  · -- maven branch, malformed
    exact Or.inl ⟨_, w, rfl, rfl⟩
  · -- maven branch, well-formed
    rw [bind_def]
    obtain ⟨r, w₁, hrun, hf, _⟩ := tryRegistries_run ext (registriesOf proj)
      (mavenArtifactPath ((mavenAddParts dep).getD 0 "")
        ((mavenAddParts dep).getD 1 "") (optStr reqVer)) w
    rw [hrun]
    cases r with
    | some payload =>
      refine Or.inr ⟨_, _, rfl, ?_, ?_⟩
      · show (fsWrite w₁ CONFIG_FILE _).files = (fsWrite w CONFIG_FILE _).files
        unfold fsWrite
        simp only [hf]
      · exact ⟨_, _, rfl⟩
    | none => exact Or.inl ⟨_, w₁, rfl, hf⟩
  · -- local branch
    have hstat : statF (localSpecPath dep) w
        = (Except.ok (fsHas w (localSpecPath dep)), w) := rfl
    rw [bind_of_ok _ hstat]
    by_cases hex : fsHas w (localSpecPath dep) = true
    · simp only [hex, Bool.not_true, Bool.false_eq_true, if_false]
      rw [bind_def]
      rcases hjar : jarToObject (localSpecPath dep) [] (some ["plugin.yml"]) w with ⟨r, w₂⟩
      have hw₂ : w₂ = w := by
        have := jarToObject_run (localSpecPath dep) [] (some ["plugin.yml"]) w
        rw [hjar] at this
        exact this
      subst hw₂
      cases r with
      | error e => exact Or.inl ⟨e, w₂, rfl, rfl⟩
      | ok jarObj =>
        dsimp only
        rw [bind_def]
        cases hyaml : ext.yamlParse ((objLookup jarObj "plugin.yml").getD "") with
        | error e =>
          exact Or.inl ⟨e, w₂, rfl, rfl⟩
        | ok yam =>
          exact Or.inr ⟨_, _, rfl, rfl, ⟨_, _, rfl⟩⟩
    · have hex₂ : fsHas w (localSpecPath dep) = false := by
        cases h : fsHas w (localSpecPath dep)
        · rfl
        · exact absurd h hex
      simp only [hex₂, Bool.not_false, if_true]
      exact Or.inl ⟨_, w, rfl, rfl⟩
  · -- registry branch
    rw [bind_def]
    unfold catchM
    rcases hget : getModrinthProject ext dep w with ⟨r, w₁⟩
    have hrun := getModrinthProject_run ext dep w
    rw [hget] at hrun
    cases r with
    | error e =>
      exact Or.inl ⟨_, w₁, rfl, hrun.1⟩
    | ok mp =>
      dsimp only
      split_ifs with hguard
      · exact Or.inl ⟨_, w₁, rfl, hrun.1⟩
      · cases hsel : selectVersionAdd reqVer force beta
            (jsTruthy (depsLookup proj.dependencies dep))
            proj.compatPlatforms proj.compatVersions mp.versions with
        | none => exact Or.inl ⟨_, w₁, rfl, hrun.1⟩
        | some v =>
          refine Or.inr ⟨_, _, rfl, ?_, ⟨_, _, rfl⟩⟩
          show (fsWrite w₁ CONFIG_FILE _).files = (fsWrite w CONFIG_FILE _).files
          have hf : w₁.files = w.files := hrun.1
          unfold fsWrite
          rw [hf]

/-- C10: adding a dependency is atomic with respect to the persisted
project declaration: whenever `addDependency` throws (unresolvable maven
artifact, missing local file, unknown package, no compatible version), no
file is created, changed or removed — in particular the project file is
not rewritten; and when it succeeds, the only write is the project
declaration serialized from the updated in-memory project, whose
dependency map records the new entry. -/
theorem c10_addDependency_atomic (ext : Oracles) (proj : Project) (dep : String)
    (reqVer : Option String) (force beta : Bool) (w : World) (e : String) :
    ((addDependency ext proj dep reqVer force beta w).1 = Except.error e →
      ((addDependency ext proj dep reqVer force beta w).2).files = w.files) ∧
    (∀ p₁ : Project, (addDependency ext proj dep reqVer force beta w).1 = Except.ok p₁ →
      ((addDependency ext proj dep reqVer force beta w).2).files
        = (fsWrite w CONFIG_FILE (FData.config p₁)).files ∧
      ∃ k vv, p₁ = { proj with dependencies := insertJS proj.dependencies k vv }) := by
  rcases addDependency_run ext proj dep reqVer force beta w with
    ⟨e₀, w₁, heq, hfiles⟩ | ⟨p₀, w₁, heq, hfiles, hrec⟩
  · constructor
    · intro _
      rw [heq]
      exact hfiles
    · intro p₁ hok
      rw [heq] at hok
      exact absurd hok (by simp)
  · constructor
    · intro herr
      rw [heq] at herr
      exact absurd herr (by simp)
    · intro p₁ hok
      rw [heq] at hok
      simp only [Except.ok.injEq] at hok
      subst hok
      rw [heq]
      exact ⟨hfiles, hrec⟩

/-- Witness for C10 at a concrete failing call: an unknown registry
package leaves the file system exactly as it was. -/
theorem c10_addDependency_atomic_witness :
    ((addDependency exOracles exProjectNoDeps "nosuch" (some "1.0") false false
        emptyWorld).2).files = emptyWorld.files :=
  (c10_addDependency_atomic exOracles exProjectNoDeps "nosuch" (some "1.0") false false
    emptyWorld
    "Unable to find nosuch on Modrinth, try manually adding the file and do pluggy install nosuch@file:./libs/nosuch.jar").1
    rfl

-- ––––– C3/C4: facts about the jars set and scoped file operations –––––

theorem mem_addJar {p q : String} {jars : List String} :
    p ∈ addJar jars q ↔ p ∈ jars ∨ p = q := by
  unfold addJar
  by_cases hc : jars.contains q = true
  · simp only [hc, if_true]
    constructor
    · exact Or.inl
    · rintro (h | h)
      · exact h
      · subst h
        exact List.mem_of_elem_eq_true hc
  · have hc₂ : jars.contains q = false := by
      cases h : jars.contains q
      · rfl
      · exact absurd h hc
    simp only [hc₂, Bool.false_eq_true, if_false, List.mem_append, List.mem_singleton]

theorem mem_addJars {p : String} {jars ps : List String} :
    p ∈ addJars jars ps ↔ p ∈ jars ∨ p ∈ ps := by
  unfold addJars
  induction ps generalizing jars with
  | nil => simp
  | cons q rest ih =>
    simp only [List.foldl_cons, ih, mem_addJar, List.mem_cons]
    tauto

theorem fsHas_iff_mem {w : World} {p : String} :
    fsHas w p = true ↔ p ∈ w.files.map Prod.fst := by
  unfold fsHas
  rw [List.any_eq_true]
  constructor
  · rintro ⟨e, he, heq⟩
    rw [beq_iff_eq] at heq
    exact heq ▸ List.mem_map_of_mem Prod.fst he
  · intro hm
    obtain ⟨e, he, heq⟩ := List.mem_map.mp hm
    exact ⟨e, he, by rw [heq, beq_iff_eq]⟩

theorem fsHas_fsWrite_self (w : World) (p : String) (d : FData) :
    fsHas (fsWrite w p d) p = true := by
  unfold fsHas fsWrite
  simp

theorem fsHas_fsWrite_mono {w : World} {q : String} (p : String) (d : FData)
    (h : fsHas w q = true) : fsHas (fsWrite w p d) q = true := by
  unfold fsHas at h ⊢
  unfold fsWrite
  rw [List.any_eq_true] at h ⊢
  obtain ⟨e, he, heq⟩ := h
  by_cases hqp : q = p
  · exact ⟨(p, d), by simp, by simp [hqp]⟩
  · refine ⟨e, ?_, heq⟩
    simp only [List.mem_append]
    left
    rw [List.mem_filter]
    refine ⟨he, ?_⟩
    rw [beq_iff_eq] at heq
    simp [heq, hqp]

theorem fsHas_fsMkdir (w : World) (d p : String) : fsHas (fsMkdir w d) p = fsHas w p := rfl

theorem filesOutside_fsWrite {scope : String → Bool} {p : String} (w : World) (d : FData)
    (hp : scope p = true) :
    filesOutside scope (fsWrite w p d) = filesOutside scope w := by
  unfold filesOutside fsWrite
  simp only [List.filter_append]
  have h1 : List.filter (fun e => !scope e.1) [(p, d)] = [] := by
    simp [hp]
  rw [h1, List.append_nil, List.filter_comm]
  have h2 : List.filter (fun e => !(e.1 == p)) (List.filter (fun e => !scope e.1) w.files)
      = List.filter (fun e => true) (List.filter (fun e => !scope e.1) w.files) := by
    apply List.filter_congr
    intro e he
    rw [List.mem_filter] at he
    have : ¬ e.1 = p := by
      intro heq
      rw [heq, hp] at he
      simpa using he.2
    simp [this]
  rw [h2, List.filter_true]

theorem filesOutside_fsMkdir (scope : String → Bool) (w : World) (d : String) :
    filesOutside scope (fsMkdir w d) = filesOutside scope w := rfl

theorem filesOutside_trace (scope : String → Bool) (w : World) (t : String) :
    filesOutside scope { w with trace := w.trace ++ [t] } = filesOutside scope w := rfl

theorem jsStartsWith_refl (s : String) : jsStartsWith s s = true := by
  unfold jsStartsWith
  rw [List.isPrefixOf_iff_prefix]

theorem jsStartsWith_extend {s pre : String} (t : String) (h : jsStartsWith s pre = true) :
    jsStartsWith (s ++ t) pre = true := by
  unfold jsStartsWith at h ⊢
  rw [List.isPrefixOf_iff_prefix] at h ⊢
  have htl : (s ++ t).toList = s.toList ++ t.toList := by
    cases s
    cases t
    rfl
  rw [htl]
  exact h.trans (List.prefix_append _ _)

theorem jsStartsWith_of_append (pre rest : String) : jsStartsWith (pre ++ rest) pre = true := by
  unfold jsStartsWith
  rw [List.isPrefixOf_iff_prefix]
  have htl : (pre ++ rest).toList = pre.toList ++ rest.toList := by
    cases pre
    cases rest
    rfl
  rw [htl]
  exact List.prefix_append _ _

theorem libsScope_mavenJarPathOf (v : String) : libsScope (mavenJarPathOf v) = true := by
  unfold libsScope mavenJarPathOf
  exact jsStartsWith_extend _ (jsStartsWith_extend _ (jsStartsWith_extend _
    (jsStartsWith_of_append _ _)))

theorem libsScope_registryJarPathOf (kv : String × String) :
    libsScope (registryJarPathOf kv) = true := by
  unfold libsScope registryJarPathOf
  exact jsStartsWith_extend _ (jsStartsWith_extend _ (jsStartsWith_extend _
    (jsStartsWith_of_append _ _)))

theorem libsScope_platformJarPath (pv : String × String) :
    libsScope (platformJarPath pv) = true := by
  unfold libsScope platformJarPath
  exact jsStartsWith_extend _ (jsStartsWith_extend _ (jsStartsWith_extend _
    (jsStartsWith_of_append _ _)))

theorem fsHas_eq_of_files {w w₂ : World} (h : w₂.files = w.files) (p : String) :
    fsHas w₂ p = fsHas w p := by
  unfold fsHas
  rw [h]

theorem bool_not_of_not {b : Bool} (h : ¬ b = true) : (!b) = true := by
  cases b
  · rfl
  · exact absurd rfl h

/-- Everything a successful `processDep` iteration guarantees: the `jars`
set grows by exactly the entry's touch path, the entry is well-formed, the
touch path exists afterwards, existing files persist, and no file outside
the libs directory is created, changed or removed. -/
theorem processDep_ok (ext : Oracles) (proj : Project) (force : Bool)
    (jars : List String) (kv : String × String) (w : World) (jars₁ : List String)
    (w₁ : World) (h : processDep ext proj force jars kv w = (Except.ok jars₁, w₁)) :
    jars₁ = addJars jars (depTouch kv) ∧
    depWF kv = true ∧
    (∀ p ∈ depTouch kv, fsHas w₁ p = true) ∧
    (∀ p, fsHas w p = true → fsHas w₁ p = true) ∧
    filesOutside libsScope w₁ = filesOutside libsScope w := by
  unfold processDep at h
  unfold depTouch depWF
  split_ifs at h ⊢ with h1 h2 h3 h4
  · -- empty dependency name
    simp only [pure_def, Prod.mk.injEq, Except.ok.injEq] at h
    obtain ⟨hj, hw⟩ := h
    subst hj
    subst hw
    exact ⟨rfl, rfl, by simp, fun p hp => hp, rfl⟩
  · -- malformed maven entry: cannot succeed
    simp only [mthrow, Prod.mk.injEq] at h
    exact absurd h.1 (by simp)
  · -- well-formed maven entry
    rw [bind_of_ok _ (rfl : statF (mavenJarPathOf kv.2) w
      = (Except.ok (fsHas w (mavenJarPathOf kv.2)), w))] at h
    by_cases hskip : (fsHas w (mavenJarPathOf kv.2) && !force) = true
    · rw [if_pos hskip] at h
      simp only [pure_def, Prod.mk.injEq, Except.ok.injEq] at h
      obtain ⟨hj, hw⟩ := h
      subst hj
      subst hw
      refine ⟨rfl, bool_not_of_not h3, ?_, fun p hp => hp, rfl⟩
      intro p hp
      rw [List.mem_singleton] at hp
      subst hp
      exact (Bool.and_eq_true _ _ |>.mp hskip).1
    · rw [if_neg hskip] at h
      rw [bind_def] at h
      obtain ⟨r, w₂, hrun, hf, _⟩ := tryRegistries_run ext (registriesOf proj)
        (mavenArtifactPath ((parseMavenInstall kv.2).getD 0 "")
          ((parseMavenInstall kv.2).getD 1 "") ((parseMavenInstall kv.2).getD 2 "")) w
      rw [hrun] at h
      cases r with
      | none =>
        dsimp only at h
        simp only [mthrow, Prod.mk.injEq] at h
        exact absurd h.1 (by simp)
      | some payload =>
        dsimp only at h
        have hred : (mkdirF LIBS_DIR >>= fun _ =>
            writeF (mavenJarPathOf kv.2) (FData.bin payload) >>= fun _ =>
            pure (addJar jars (mavenJarPathOf kv.2))) w₂
            = (Except.ok (addJar jars (mavenJarPathOf kv.2)),
               fsWrite (fsMkdir w₂ LIBS_DIR) (mavenJarPathOf kv.2) (FData.bin payload)) := rfl
        rw [hred] at h
        simp only [Prod.mk.injEq, Except.ok.injEq] at h
        obtain ⟨hj, hw⟩ := h
        subst hj
        refine ⟨rfl, bool_not_of_not h3, ?_, ?_, ?_⟩
        · intro p hp
          rw [List.mem_singleton] at hp
          subst hp
          rw [← hw]
          exact fsHas_fsWrite_self _ _ _
        · intro p hp
          rw [← hw]
          apply fsHas_fsWrite_mono
          rw [fsHas_fsMkdir, fsHas_eq_of_files hf]
          exact hp
        · rw [← hw, filesOutside_fsWrite _ _ (libsScope_mavenJarPathOf kv.2),
            filesOutside_fsMkdir]
          unfold filesOutside
          rw [hf]
  · -- local file entry
    rw [bind_of_ok _ (rfl : statF (jsSlice kv.2 5) w
      = (Except.ok (fsHas w (jsSlice kv.2 5)), w))] at h
    by_cases hex : fsHas w (jsSlice kv.2 5) = true
    · rw [hex] at h
      simp only [Bool.not_true, Bool.false_eq_true, if_false, pure_def, Prod.mk.injEq,
        Except.ok.injEq] at h
      obtain ⟨hj, hw⟩ := h
      subst hj
      subst hw
      refine ⟨rfl, rfl, ?_, fun p hp => hp, rfl⟩
      intro p hp
      rw [List.mem_singleton] at hp
      subst hp
      exact hex
    · have hex₂ : fsHas w (jsSlice kv.2 5) = false := by
        cases hx : fsHas w (jsSlice kv.2 5)
        · rfl
        · exact absurd hx hex
      rw [hex₂] at h
      simp only [Bool.not_false, if_true, mthrow, Prod.mk.injEq] at h
      exact absurd h.1 (by simp)
  · -- registry entry
    rw [bind_of_ok _ (rfl : statF (registryJarPathOf kv) w
      = (Except.ok (fsHas w (registryJarPathOf kv)), w))] at h
    by_cases hfetch : (force || !(fsHas w (registryJarPathOf kv))) = true
    · rw [if_pos hfetch] at h
      rw [bind_def] at h
      rcases hget : getModrinthProject ext kv.1 w with ⟨r, w₂⟩
      have hrun := getModrinthProject_run ext kv.1 w
      rw [hget] at hrun
      rw [hget] at h
      cases r with
      | error e =>
        dsimp only at h
        simp only [Prod.mk.injEq] at h
        exact absurd h.1 (by simp)
      | ok mp =>
        dsimp only at h
        cases hsel : selectVersionInstall kv.2 force proj.compatPlatforms proj.compatVersions
            mp.versions none with
        | none =>
          rw [hsel] at h
          dsimp only at h
          simp only [mthrow, Prod.mk.injEq] at h
          exact absurd h.1 (by simp)
        | some f =>
          rw [hsel] at h
          dsimp only at h
          cases hfetchr : ext.fetchUrl f.url with
          | none =>
            have hred : (traceM ("GET " ++ f.url) >>= fun _ =>
                match ext.fetchUrl f.url with
                | none => mthrow ("Failed to download " ++ kv.1 ++ " version " ++ kv.2
                    ++ " from Modrinth")
                | some payload =>
                  mkdirF LIBS_DIR >>= fun _ =>
                  writeF (registryJarPathOf kv) (FData.bin payload) >>= fun _ =>
                  pure (addJar jars (registryJarPathOf kv))) w₂
                = ((match ext.fetchUrl f.url with
                  | none => mthrow ("Failed to download " ++ kv.1 ++ " version " ++ kv.2
                      ++ " from Modrinth")
                  | some payload =>
                    mkdirF LIBS_DIR >>= fun _ =>
                    writeF (registryJarPathOf kv) (FData.bin payload) >>= fun _ =>
                    pure (addJar jars (registryJarPathOf kv)))
                  { w₂ with trace := w₂.trace ++ ["GET " ++ f.url] }) := rfl
            rw [hred, hfetchr] at h
            simp only [mthrow, Prod.mk.injEq] at h
            exact absurd h.1 (by simp)
          | some payload =>
            have hred : (traceM ("GET " ++ f.url) >>= fun _ =>
                match ext.fetchUrl f.url with
                | none => mthrow ("Failed to download " ++ kv.1 ++ " version " ++ kv.2
                    ++ " from Modrinth")
                | some payload =>
                  mkdirF LIBS_DIR >>= fun _ =>
                  writeF (registryJarPathOf kv) (FData.bin payload) >>= fun _ =>
                  pure (addJar jars (registryJarPathOf kv))) w₂
                = ((match ext.fetchUrl f.url with
                  | none => mthrow ("Failed to download " ++ kv.1 ++ " version " ++ kv.2
                      ++ " from Modrinth")
                  | some payload =>
                    mkdirF LIBS_DIR >>= fun _ =>
                    writeF (registryJarPathOf kv) (FData.bin payload) >>= fun _ =>
                    pure (addJar jars (registryJarPathOf kv)))
                  { w₂ with trace := w₂.trace ++ ["GET " ++ f.url] }) := rfl
            rw [hred, hfetchr] at h
            dsimp only at h
            have hred₂ : (mkdirF LIBS_DIR >>= fun _ =>
                writeF (registryJarPathOf kv) (FData.bin payload) >>= fun _ =>
                pure (addJar jars (registryJarPathOf kv)))
                { w₂ with trace := w₂.trace ++ ["GET " ++ f.url] }
                = (Except.ok (addJar jars (registryJarPathOf kv)),
                   fsWrite (fsMkdir { w₂ with trace := w₂.trace ++ ["GET " ++ f.url] } LIBS_DIR)
                     (registryJarPathOf kv) (FData.bin payload)) := rfl
            rw [hred₂] at h
            simp only [Prod.mk.injEq, Except.ok.injEq] at h
            obtain ⟨hj, hw⟩ := h
            subst hj
            refine ⟨rfl, rfl, ?_, ?_, ?_⟩
            · intro p hp
              rw [List.mem_singleton] at hp
              subst hp
              rw [← hw]
              exact fsHas_fsWrite_self _ _ _
            · intro p hp
              rw [← hw]
              apply fsHas_fsWrite_mono
              show fsHas { fsMkdir w₂ LIBS_DIR with
                trace := w₂.trace ++ ["GET " ++ f.url] } p = true
              rw [show fsHas { fsMkdir w₂ LIBS_DIR with
                  trace := w₂.trace ++ ["GET " ++ f.url] } p = fsHas w₂ p from rfl,
                fsHas_eq_of_files hrun.1]
              exact hp
            · rw [← hw, filesOutside_fsWrite _ _ (libsScope_registryJarPathOf kv)]
              show filesOutside libsScope w₂ = filesOutside libsScope w
              unfold filesOutside
              rw [hrun.1]
    · rw [if_neg hfetch] at h
      simp only [pure_def, Prod.mk.injEq, Except.ok.injEq] at h
      obtain ⟨hj, hw⟩ := h
      subst hj
      subst hw
      refine ⟨rfl, rfl, ?_, fun p hp => hp, rfl⟩
      intro p hp
      rw [List.mem_singleton] at hp
      subst hp
      rcases hx : fsHas w (registryJarPathOf kv) with _ | _
      · exfalso
        apply hfetch
        rw [hx]
        simp
      · rfl

/-- A non-forced `processDep` iteration whose touch path already exists on
disk performs no effect at all: it only records the path in the `jars`
set. -/
theorem processDep_skip (ext : Oracles) (proj : Project) (jars : List String)
    (kv : String × String) (w : World)
    (hwf : depWF kv = true)
    (hex : ∀ p ∈ depTouch kv, fsHas w p = true) :
    processDep ext proj false jars kv w = (Except.ok (addJars jars (depTouch kv)), w) := by
  unfold processDep
  unfold depTouch at hex ⊢
  by_cases h1 : (kv.1 == "") = true
  · rw [if_pos h1, if_pos h1]
    rfl
  · rw [if_neg h1] at hex ⊢
    rw [if_neg h1]
    by_cases h2 : jsStartsWith kv.2 "maven:" = true
    · rw [if_pos h2] at hex ⊢
      rw [if_pos h2]
      unfold depWF at hwf
      rw [if_neg h1, if_pos h2, Bool.not_eq_true'] at hwf
      rw [if_neg (by rw [hwf]; exact Bool.false_ne_true)] at hex ⊢
      rw [if_neg (by rw [hwf]; exact Bool.false_ne_true)]
      have hx : fsHas w (mavenJarPathOf kv.2) = true :=
        hex _ (List.mem_singleton_self _)
      rw [bind_of_ok _ (rfl : statF (mavenJarPathOf kv.2) w
        = (Except.ok (fsHas w (mavenJarPathOf kv.2)), w))]
      rw [hx]
      rfl
    · rw [if_neg h2] at hex ⊢
      rw [if_neg h2]
      by_cases h4 : jsStartsWith kv.2 "file:" = true
      · rw [if_pos h4] at hex ⊢
        rw [if_pos h4]
        have hx : fsHas w (jsSlice kv.2 5) = true := hex _ (List.mem_singleton_self _)
        rw [bind_of_ok _ (rfl : statF (jsSlice kv.2 5) w
          = (Except.ok (fsHas w (jsSlice kv.2 5)), w))]
        rw [hx]
        rfl
      · rw [if_neg h4] at hex ⊢
        rw [if_neg h4]
        have hx : fsHas w (registryJarPathOf kv) = true := hex _ (List.mem_singleton_self _)
        rw [bind_of_ok _ (rfl : statF (registryJarPathOf kv) w
          = (Except.ok (fsHas w (registryJarPathOf kv)), w))]
        rw [hx]
        rfl

/-- The fold of an installation pass over the `jars` set. -/
def jarsFold (deps : List (String × String)) (init : List String) : List String :=
  deps.foldl (fun acc kv => addJars acc (depTouch kv)) init

theorem mem_jarsFold {p : String} {deps : List (String × String)} {init : List String} :
    p ∈ jarsFold deps init ↔ p ∈ init ∨ ∃ kv ∈ deps, p ∈ depTouch kv := by
  unfold jarsFold
  induction deps generalizing init with
  | nil => simp
  | cons kv rest ih =>
    simp only [List.foldl_cons, ih, mem_addJars, List.mem_cons]
    constructor
    · rintro ((h | h) | ⟨kv₂, hkv₂, hp⟩)
      · exact Or.inl h
      · exact Or.inr ⟨kv, Or.inl rfl, h⟩
      · exact Or.inr ⟨kv₂, Or.inr hkv₂, hp⟩
    · rintro (h | ⟨kv₂, (hkv₂ | hkv₂), hp⟩)
      · exact Or.inl (Or.inl h)
      · exact Or.inl (Or.inr (hkv₂ ▸ hp))
      · exact Or.inr ⟨kv₂, hkv₂, hp⟩

/-- Facts established by a successful dependency loop. -/
theorem processDeps_ok (ext : Oracles) (proj : Project) (force : Bool)
    (deps : List (String × String)) :
    ∀ (jars : List String) (w : World) (jarsOut : List String) (wOut : World),
    processDeps ext proj force deps jars w = (Except.ok jarsOut, wOut) →
    jarsOut = jarsFold deps jars ∧
    (∀ kv ∈ deps, depWF kv = true) ∧
    (∀ kv ∈ deps, ∀ p ∈ depTouch kv, fsHas wOut p = true) ∧
    (∀ p, fsHas w p = true → fsHas wOut p = true) ∧
    filesOutside libsScope wOut = filesOutside libsScope w := by
  induction deps with
  | nil =>
    intro jars w jarsOut wOut h
    unfold processDeps at h
    simp only [pure_def, Prod.mk.injEq, Except.ok.injEq] at h
    obtain ⟨hj, hw⟩ := h
    subst hj
    subst hw
    exact ⟨rfl, by simp, by simp, fun p hp => hp, rfl⟩
  | cons kv rest ih =>
    intro jars w jarsOut wOut h
    unfold processDeps at h
    rw [bind_def] at h
    rcases hstep : processDep ext proj force jars kv w with ⟨r, w₂⟩
    rw [hstep] at h
    cases r with
    | error e =>
      simp only [Prod.mk.injEq] at h
      exact absurd h.1 (by simp)
    | ok jars₂ =>
      obtain ⟨hjars₂, hwf, hextouch, hmono, hout⟩ :=
        processDep_ok ext proj force jars kv w jars₂ w₂ hstep
      obtain ⟨hj, hwfr, hexr, hmonor, houtr⟩ := ih jars₂ w₂ jarsOut wOut h
      refine ⟨?_, ?_, ?_, ?_, ?_⟩
      · rw [hj, hjars₂]
        rfl
      · intro kv₂ hkv₂
        rcases List.mem_cons.mp hkv₂ with hh | hh
        · exact hh ▸ hwf
        · exact hwfr kv₂ hh
      · intro kv₂ hkv₂ p hp
        rcases List.mem_cons.mp hkv₂ with hh | hh
        · exact hmonor p (hextouch p (hh ▸ hp))
        · exact hexr kv₂ hh p hp
      · intro p hp
        exact hmonor p (hmono p hp)
      · rw [houtr, hout]

/-- A non-forced dependency loop whose touch paths all exist on disk is a
pure no-op on the world. -/
theorem processDeps_skip (ext : Oracles) (proj : Project)
    (deps : List (String × String)) :
    ∀ (jars : List String) (w : World),
    (∀ kv ∈ deps, depWF kv = true) →
    (∀ kv ∈ deps, ∀ p ∈ depTouch kv, fsHas w p = true) →
    processDeps ext proj false deps jars w = (Except.ok (jarsFold deps jars), w) := by
  induction deps with
  | nil =>
    intro jars w _ _
    rfl
  | cons kv rest ih =>
    intro jars w hwf hex
    unfold processDeps
    rw [bind_of_ok _ (processDep_skip ext proj jars kv w
      (hwf kv (List.mem_cons_self kv rest))
      (hex kv (List.mem_cons_self kv rest)))]
    exact ih (addJars jars (depTouch kv)) w
      (fun kv₂ h => hwf kv₂ (List.mem_cons_of_mem kv h))
      (fun kv₂ h => hex kv₂ (List.mem_cons_of_mem kv h))

-- ––––– platform step lemmas –––––

theorem installPlatformStep_ok (ext : Oracles) (platform version pp : String)
    (fp : Bool) (w w₁ : World) (hpp : libsScope pp = true)
    (h : installPlatformStep ext platform version pp fp w = (Except.ok (), w₁)) :
    fsHas w₁ pp = true ∧
    (∀ p, fsHas w p = true → fsHas w₁ p = true) ∧
    filesOutside libsScope w₁ = filesOutside libsScope w := by
  unfold installPlatformStep at h
  rw [bind_of_ok _ (rfl : statF pp w = (Except.ok (fsHas w pp), w))] at h
  by_cases hcond : (fp || !(fsHas w pp)) = true
  · rw [if_pos hcond] at h
    rw [bind_def] at h
    have htr : traceM ("GET snapshot " ++ getPlatformRepository platform ++ " " ++ version) w
        = (Except.ok (), { w with trace := w.trace
            ++ ["GET snapshot " ++ getPlatformRepository platform ++ " " ++ version] }) := rfl
    rw [htr] at h
    cases hsnap : ext.snapshot (getPlatformRepository platform) version with
    | none =>
      rw [hsnap] at h
      simp only [mthrow, Prod.mk.injEq] at h
      exact absurd h.1 (by simp)
    | some payload =>
      rw [hsnap] at h
      dsimp only at h
      have hred : (mkdirF LIBS_DIR >>= fun _ => writeF pp (FData.bin payload))
          { w with trace := w.trace
            ++ ["GET snapshot " ++ getPlatformRepository platform ++ " " ++ version] }
          = (Except.ok (), fsWrite (fsMkdir { w with trace := w.trace
              ++ ["GET snapshot " ++ getPlatformRepository platform ++ " " ++ version] }
              LIBS_DIR) pp (FData.bin payload)) := rfl
      rw [hred] at h
      simp only [Prod.mk.injEq, true_and] at h
      refine ⟨?_, ?_, ?_⟩
      · rw [← h]
        exact fsHas_fsWrite_self _ _ _
      · intro p hp
        rw [← h]
        exact fsHas_fsWrite_mono _ _ hp
      · rw [← h, filesOutside_fsWrite _ _ hpp]
        rfl
  · rw [if_neg hcond] at h
    simp only [pure_def, Prod.mk.injEq, true_and] at h
    subst h
    have hex : fsHas w pp = true := by
      rcases hx : fsHas w pp with _ | _
      · exfalso
        apply hcond
        rw [hx]
        simp
      · rfl
    exact ⟨hex, fun p hp => hp, rfl⟩

theorem installPlatformStep_skip (ext : Oracles) (platform version pp : String)
    (w : World) (hex : fsHas w pp = true) :
    installPlatformStep ext platform version pp false w = (Except.ok (), w) := by
  unfold installPlatformStep
  rw [bind_of_ok _ (rfl : statF pp w = (Except.ok (fsHas w pp), w))]
  rw [hex]
  rfl

-- ––––– garbage-collection lemmas –––––

theorem gcRemoveAll_run (l : List String) :
    ∀ w : World, (gcRemoveAll l w).1 = Except.ok () ∧
    ((gcRemoveAll l w).2).files = w.files.filter (fun e => !(l.contains e.1)) := by
  induction l with
  | nil =>
    intro w
    refine ⟨rfl, ?_⟩
    show w.files = _
    have : (fun (e : String × FData) => !(([] : List String).contains e.1))
        = fun _ => true := by
      funext e
      rfl
    rw [this, List.filter_true]
  | cons p rest ih =>
    intro w
    unfold gcRemoveAll
    rw [bind_of_ok _ (rfl : removeF p w = (Except.ok (), fsRemove w p))]
    obtain ⟨h1, h2⟩ := ih (fsRemove w p)
    refine ⟨h1, ?_⟩
    rw [h2]
    show (List.filter _ (List.filter _ w.files)) = _
    rw [List.filter_filter]
    apply List.filter_congr
    intro e _
    show (!(rest.contains e.1) && !(e.1 == p)) = !((p :: rest).contains e.1)
    rw [List.contains_cons]
    rcases hc : e.1 == p with _ | _
    · simp
    · simp [hc]

theorem gcLibs_run (jars : List String) (w : World) :
    (gcLibs jars w).1 = Except.ok () ∧
    ((gcLibs jars w).2).files
      = w.files.filter (fun e => !(isLibsDirJar e.1) || jars.contains e.1) := by
  unfold gcLibs
  rw [bind_of_ok _ (rfl : getW w = (Except.ok w, w))]
  obtain ⟨h1, h2⟩ := gcRemoveAll_run (gcCandidates w jars) w
  refine ⟨h1, ?_⟩
  rw [h2]
  apply List.filter_congr
  intro e he
  have hmf : e.1 ∈ w.files.map Prod.fst := List.mem_map_of_mem Prod.fst he
  have hiff : (gcCandidates w jars).contains e.1 = true
      ↔ (isLibsDirJar e.1 && !(jars.contains e.1)) = true := by
    unfold gcCandidates
    constructor
    · intro hc
      exact (List.mem_filter.mp (List.mem_of_elem_eq_true hc)).2
    · intro hp
      exact List.elem_eq_true_of_mem (List.mem_filter.mpr ⟨hmf, hp⟩)
  have hmem : (gcCandidates w jars).contains e.1
      = (isLibsDirJar e.1 && !(jars.contains e.1)) := by
    rcases hc : (gcCandidates w jars).contains e.1 with _ | _
    · rcases hp : (isLibsDirJar e.1 && !(jars.contains e.1)) with _ | _
      · rfl
      · rw [← hiff.mpr hp, hc]
    · rw [hiff.mp hc]
  rw [hmem]
  rcases ha : isLibsDirJar e.1 with _ | _ <;> rcases hb : jars.contains e.1 with _ | _ <;> rfl

theorem gcLibs_noop (jars : List String) (w : World) (h : gcCandidates w jars = []) :
    gcLibs jars w = (Except.ok (), w) := by
  unfold gcLibs
  rw [bind_of_ok _ (rfl : getW w = (Except.ok w, w)), h]
  rfl

-- ––––– installDependenciesCore dissection and assembly –––––

theorem installCore_steps (ext : Oracles) (proj : Project) (force fp : Bool)
    (w : World) (jars : List String) (w₁ : World)
    (h : installDependenciesCore ext proj force fp w = (Except.ok jars, w₁)) :
    ∃ pv wa wb,
      getActivePlatform proj = Except.ok pv ∧
      installPlatformStep ext pv.1 pv.2 (platformJarPath pv) fp w = (Except.ok (), wa) ∧
      processDeps ext proj force proj.dependencies [platformJarPath pv] wa
        = (Except.ok jars, wb) ∧
      gcLibs jars wb = (Except.ok (), w₁) := by
  unfold installDependenciesCore at h
  rw [bind_def] at h
  cases hpv : getActivePlatform proj with
  | error e =>
    rw [show liftE (getActivePlatform proj) w = (Except.error e, w) by rw [hpv]; rfl] at h
    dsimp only at h
    simp only [Prod.mk.injEq] at h
    exact absurd h.1 (by simp)
  | ok pv =>
    rw [show liftE (getActivePlatform proj) w = (Except.ok pv, w) by rw [hpv]; rfl] at h
    dsimp only at h
    rw [bind_def] at h
    rcases hplat : installPlatformStep ext pv.1 pv.2 (platformJarPath pv) fp w with ⟨rp, wa⟩
    rw [hplat] at h
    cases rp with
    | error e =>
      simp only [Prod.mk.injEq] at h
      exact absurd h.1 (by simp)
    | ok u =>
      cases u
      dsimp only at h
      rw [bind_def] at h
      rcases hdeps : processDeps ext proj force proj.dependencies [platformJarPath pv] wa
        with ⟨rd, wb⟩
      rw [hdeps] at h
      cases rd with
      | error e =>
        simp only [Prod.mk.injEq] at h
        exact absurd h.1 (by simp)
      | ok jarsb =>
        dsimp only at h
        rw [bind_def] at h
        rcases hgc : gcLibs jarsb wb with ⟨rg, wg⟩
        rw [hgc] at h
        have hrg : rg = Except.ok () := by
          have := (gcLibs_run jarsb wb).1
          rw [hgc] at this
          exact this
        subst hrg
        dsimp only at h
        simp only [pure_def, Prod.mk.injEq, Except.ok.injEq] at h
        obtain ⟨hj, hw⟩ := h
        subst hj
        subst hw
        exact ⟨pv, wa, wb, rfl, hplat, hdeps, hgc⟩

theorem installCore_build (ext : Oracles) (proj : Project) (force fp : Bool)
    (pv : String × String) (w wa wb wc : World) (jb : List String)
    (hpv : getActivePlatform proj = Except.ok pv)
    (h1 : installPlatformStep ext pv.1 pv.2 (platformJarPath pv) fp w = (Except.ok (), wa))
    (h2 : processDeps ext proj force proj.dependencies [platformJarPath pv] wa
      = (Except.ok jb, wb))
    (h3 : gcLibs jb wb = (Except.ok (), wc)) :
    installDependenciesCore ext proj force fp w = (Except.ok jb, wc) := by
  unfold installDependenciesCore
  rw [bind_of_ok _ (show liftE (getActivePlatform proj) w = (Except.ok pv, w) by
    rw [hpv]; rfl)]
  rw [bind_of_ok _ h1, bind_of_ok _ h2, bind_of_ok _ h3]
  rfl

/-- The postcondition of a successful installation pass: the returned set
is the fold of touch paths over the dependency map; every entry is
well-formed; every recorded path exists afterwards; and every libs-dir jar
still on disk is recorded (everything else was garbage collected). -/
theorem installCore_facts (ext : Oracles) (proj : Project) (force fp : Bool)
    (w : World) (jars : List String) (w₁ : World)
    (h : installDependenciesCore ext proj force fp w = (Except.ok jars, w₁)) :
    ∃ pv, getActivePlatform proj = Except.ok pv ∧
      jars = jarsFold proj.dependencies [platformJarPath pv] ∧
      (∀ kv ∈ proj.dependencies, depWF kv = true) ∧
      (∀ p ∈ jars, fsHas w₁ p = true) ∧
      (∀ p, isLibsDirJar p = true → fsHas w₁ p = true → p ∈ jars) := by
  obtain ⟨pv, wa, wb, hpv, hplat, hdeps, hgc⟩ :=
    installCore_steps ext proj force fp w jars w₁ h
  obtain ⟨hplathas, hplatmono, _⟩ :=
    installPlatformStep_ok ext pv.1 pv.2 (platformJarPath pv) fp w wa
      (libsScope_platformJarPath pv) hplat
  obtain ⟨hj, hwf, htouch, hmono, _⟩ :=
    processDeps_ok ext proj force proj.dependencies [platformJarPath pv] wa jars wb hdeps
  obtain ⟨_, hgcfiles⟩ := gcLibs_run jars wb
  rw [hgc] at hgcfiles
  have hgcfiles₁ : w₁.files
      = wb.files.filter (fun e => !(isLibsDirJar e.1) || jars.contains e.1) := hgcfiles
  have hhaswb : ∀ p ∈ jars, fsHas wb p = true := by
    intro p hp
    rw [hj] at hp
    rcases mem_jarsFold.mp hp with hp₀ | ⟨kv, hkv, hpt⟩
    · rw [List.mem_singleton] at hp₀
      subst hp₀
      exact hmono _ hplathas
    · exact htouch kv hkv p hpt
  have hkeep : ∀ p ∈ jars, fsHas w₁ p = true := by
    intro p hp
    have hwb := hhaswb p hp
    unfold fsHas at hwb ⊢
    rw [List.any_eq_true] at hwb ⊢
    obtain ⟨e, he, heq⟩ := hwb
    refine ⟨e, ?_, heq⟩
    rw [hgcfiles₁, List.mem_filter]
    refine ⟨he, ?_⟩
    rw [beq_iff_eq] at heq
    have : jars.contains e.1 = true := by
      rw [heq]
      exact List.elem_eq_true_of_mem hp
    rw [this]
    simp
  refine ⟨pv, hpv, hj, hwf, hkeep, ?_⟩
  intro p hlj hp
  unfold fsHas at hp
  rw [List.any_eq_true] at hp
  obtain ⟨e, he, heq⟩ := hp
  rw [beq_iff_eq] at heq
  rw [hgcfiles₁, List.mem_filter] at he
  have hpred := he.2
  rw [heq, hlj] at hpred
  simp only [Bool.not_true, Bool.false_or] at hpred
  exact List.mem_of_elem_eq_true hpred

/-- C3: a second non-forced installation pass over the same dependency map
is a complete no-op: it returns the same `jars` set and the very same
world — no file is re-fetched, overwritten or removed (the world carries
an operation trace, so equality of worlds means not a single write,
removal or network fetch happened in the second pass). -/
theorem c3_install_idempotent (ext : Oracles) (proj : Project) (w : World)
    (jars : List String) (w₁ : World)
    (h : installDependenciesCore ext proj false false w = (Except.ok jars, w₁)) :
    installDependenciesCore ext proj false false w₁ = (Except.ok jars, w₁) := by
  obtain ⟨pv, hpv, hj, hwf, hhas, hgckeep⟩ := installCore_facts ext proj false false w jars w₁ h
  have hpp : fsHas w₁ (platformJarPath pv) = true := by
    apply hhas
    rw [hj]
    exact mem_jarsFold.mpr (Or.inl (List.mem_singleton_self _))
  have htouch : ∀ kv ∈ proj.dependencies, ∀ p ∈ depTouch kv, fsHas w₁ p = true := by
    intro kv hkv p hp
    apply hhas
    rw [hj]
    exact mem_jarsFold.mpr (Or.inr ⟨kv, hkv, hp⟩)
  have hskipdeps := processDeps_skip ext proj proj.dependencies [platformJarPath pv] w₁
    hwf htouch
  have hgcnone : gcCandidates w₁ jars = [] := by
    unfold gcCandidates
    rw [List.filter_eq_nil]
    intro p hp
    intro hcond
    rw [Bool.and_eq_true] at hcond
    have hhasp : fsHas w₁ p = true := fsHas_iff_mem.mpr hp
    have hmem : p ∈ jars := hgckeep p hcond.1 hhasp
    have : jars.contains p = true := List.elem_eq_true_of_mem hmem
    rw [this] at hcond
    simpa using hcond.2
  have := installCore_build ext proj false false pv w₁ w₁ w₁ w₁
    (jarsFold proj.dependencies [platformJarPath pv]) hpv
    (installPlatformStep_skip ext pv.1 pv.2 (platformJarPath pv) w₁ hpp)
    hskipdeps
    (gcLibs_noop (jarsFold proj.dependencies [platformJarPath pv]) w₁ (hj ▸ hgcnone))
  rw [← hj] at this
  exact this

/-- Witness for C3: the pass over `exProject` from the empty world
produces `c3World₁`; running it again returns the identical result and
world. -/
theorem c3_install_idempotent_witness :
    installDependenciesCore exOracles exProject false false c3World₁
      = (Except.ok ["libs/paper-1.21.7.jar", "libs/worldedit-1.0.0.jar"], c3World₁) :=
  c3_install_idempotent exOracles exProject emptyWorld
    ["libs/paper-1.21.7.jar", "libs/worldedit-1.0.0.jar"] c3World₁ rfl

/-- C4: after an installation pass completes, every `.jar` file directly
under the libs directory that is still on disk was touched by the pass
(recorded in the `jars` set) — all others were deleted; in particular,
installing `{worldedit: 1.0.0}` and then reinstalling with an empty
dependency map leaves no worldedit artifact on disk. -/
theorem c4_gc_liveness :
    (∀ (ext : Oracles) (proj : Project) (force fp : Bool) (w : World)
        (jars : List String) (w₁ : World) (p : String),
      installDependenciesCore ext proj force fp w = (Except.ok jars, w₁) →
      isLibsDirJar p = true → fsHas w₁ p = true → p ∈ jars) ∧
    fsHas ((installDependenciesCore exOracles exProjectNoDeps false false
        ((installDependenciesCore exOracles exProject false false emptyWorld).2)).2)
      "libs/worldedit-1.0.0.jar" = false := by
  constructor
  · intro ext proj force fp w jars w₁ p h hlj hhas
    obtain ⟨pv, _, _, _, _, hgckeep⟩ := installCore_facts ext proj force fp w jars w₁ h
    exact hgckeep p hlj hhas
  · rfl

/-- Witness for C4 at the concrete scenario: the platform jar remains on
disk after the pass and is indeed recorded in the returned set. -/
theorem c4_gc_liveness_witness :
    "libs/paper-1.21.7.jar" ∈ ["libs/paper-1.21.7.jar", "libs/worldedit-1.0.0.jar"] :=
  c4_gc_liveness.1 exOracles exProject false false emptyWorld
    ["libs/paper-1.21.7.jar", "libs/worldedit-1.0.0.jar"] c3World₁
    "libs/paper-1.21.7.jar" rfl rfl rfl

-- ––––– C7: scoped-effect machinery –––––

theorem filesOutside_congr {scope : String → Bool} {w w₂ : World}
    (h : w₂.files = w.files) : filesOutside scope w₂ = filesOutside scope w := by
  unfold filesOutside
  rw [h]

theorem scoped_of_worldConst {α : Type} {m : M α} (h : WorldConst m)
    (scope : String → Bool) : Scoped scope m := by
  intro w
  rw [h w]

theorem worldConst_pure {α : Type} (a : α) : WorldConst (pure a : M α) := fun _ => rfl

theorem worldConst_mthrow {α : Type} (e : String) : WorldConst (mthrow e : M α) := fun _ => rfl

theorem worldConst_statF (p : String) : WorldConst (statF p) := fun _ => rfl

theorem worldConst_getW : WorldConst getW := fun _ => rfl

theorem worldConst_readF (p : String) : WorldConst (readF p) := by
  intro w
  unfold readF
  cases fsLookup w p <;> rfl

theorem worldConst_liftE {α : Type} (x : Except String α) : WorldConst (liftE x) := by
  intro w
  cases x <;> rfl

theorem worldConst_jarToObject (p : String) (exc : List String)
    (incp : Option (List String)) : WorldConst (jarToObject p exc incp) :=
  fun w => jarToObject_run p exc incp w

theorem worldConst_bind {α β : Type} {x : M α} {f : α → M β}
    (hx : WorldConst x) (hf : ∀ a, WorldConst (f a)) : WorldConst (x >>= f) := by
  intro w
  rw [bind_def]
  rcases hxw : x w with ⟨r, w₂⟩
  have hw₂ : w₂ = w := by
    have := hx w
    rw [hxw] at this
    exact this
  cases r with
  | ok a =>
    rw [hf a w₂, hw₂]
  | error e => exact hw₂

theorem scoped_bind {α β : Type} {scope : String → Bool} {x : M α} {f : α → M β}
    (hx : Scoped scope x) (hf : ∀ a, Scoped scope (f a)) : Scoped scope (x >>= f) := by
  intro w
  rw [bind_def]
  rcases hxw : x w with ⟨r, w₂⟩
  have hw₂ : filesOutside scope w₂ = filesOutside scope w := by
    have := hx w
    rw [hxw] at this
    exact this
  cases r with
  | ok a => rw [hf a w₂, hw₂]
  | error e => exact hw₂

theorem scoped_catchM {α : Type} {scope : String → Bool} {x : M α} {h : String → M α}
    (hx : Scoped scope x) (hh : ∀ e, Scoped scope (h e)) : Scoped scope (catchM x h) := by
  intro w
  unfold catchM
  rcases hxw : x w with ⟨r, w₂⟩
  have hw₂ : filesOutside scope w₂ = filesOutside scope w := by
    have := hx w
    rw [hxw] at this
    exact this
  cases r with
  | ok a => exact hw₂
  | error e => rw [hh e w₂, hw₂]

theorem scoped_ite {α : Type} {scope : String → Bool} (c : Prop) [Decidable c]
    {a b : M α} (ha : Scoped scope a) (hb : Scoped scope b) :
    Scoped scope (if c then a else b) := by
  by_cases hc : c
  · rw [if_pos hc]
    exact ha
  · rw [if_neg hc]
    exact hb

theorem scoped_writeF {scope : String → Bool} (p : String) (d : FData)
    (hp : scope p = true) : Scoped scope (writeF p d) := by
  intro w
  exact filesOutside_fsWrite w d hp

theorem scoped_removeF {scope : String → Bool} (p : String)
    (hp : scope p = true) : Scoped scope (removeF p) := by
  intro w
  show filesOutside scope (fsRemove w p) = filesOutside scope w
  unfold filesOutside fsRemove
  show List.filter _ (List.filter _ w.files) = _
  rw [List.filter_comm]
  have h2 : List.filter (fun e => !(e.1 == p)) (List.filter (fun e => !scope e.1) w.files)
      = List.filter (fun e => true) (List.filter (fun e => !scope e.1) w.files) := by
    apply List.filter_congr
    intro e he
    rw [List.mem_filter] at he
    have : ¬ e.1 = p := by
      intro heq
      rw [heq, hp] at he
      simpa using he.2
    simp [this]
  rw [h2, List.filter_true]

theorem scoped_mkdirF (scope : String → Bool) (p : String) : Scoped scope (mkdirF p) :=
  fun _ => rfl

theorem scoped_traceM (scope : String → Bool) (s : String) : Scoped scope (traceM s) :=
  fun _ => rfl

theorem scoped_removeTreeF {scope : String → Bool} (d : String)
    (hd : ∀ p, jsStartsWith p (d ++ "/") = true → scope p = true) :
    Scoped scope (removeTreeF d) := by
  intro w
  show filesOutside scope (fsRemoveTree w d) = filesOutside scope w
  unfold filesOutside fsRemoveTree
  show List.filter _ (List.filter _ w.files) = _
  rw [List.filter_comm]
  have h2 : List.filter (fun e => !((d ++ "/").toList.isPrefixOf e.1.toList))
        (List.filter (fun e => !scope e.1) w.files)
      = List.filter (fun e => true) (List.filter (fun e => !scope e.1) w.files) := by
    apply List.filter_congr
    intro e he
    rw [List.mem_filter] at he
    have hpf : ((d ++ "/").toList.isPrefixOf e.1.toList) = false := by
      rcases hx : ((d ++ "/").toList.isPrefixOf e.1.toList) with _ | _
      · rfl
      · have := hd e.1 hx
        rw [this] at he
        simpa using he.2
    simp only [Bool.not_eq_true']
    simpa using hpf
  rw [h2, List.filter_true]

theorem scoped_mono {α : Type} {s₁ s₂ : String → Bool}
    (hs : ∀ p, s₁ p = true → s₂ p = true) {m : M α} (h : Scoped s₁ m) :
    Scoped s₂ m := by
  have key : ∀ v : World,
      filesOutside s₂ v = List.filter (fun e => !(s₂ e.1)) (filesOutside s₁ v) := by
    intro v
    unfold filesOutside
    rw [List.filter_filter]
    apply List.filter_congr
    intro e _
    rcases h2 : s₂ e.1 with _ | _
    · have h1 : s₁ e.1 = false := by
        rcases h1x : s₁ e.1 with _ | _
        · rfl
        · rw [hs e.1 h1x] at h2
          simp at h2
      simp [h1, h2]
    · simp [h2]
  intro w
  rw [key ((m w).2), key w, h w]

theorem isPrefixOf_head {a b : Char} {xs ys l : List Char}
    (ha : (a :: xs).isPrefixOf l = true) (hb : (b :: ys).isPrefixOf l = true) :
    a = b := by
  cases l with
  | nil => simp [List.isPrefixOf] at ha
  | cons c cs =>
    simp only [List.isPrefixOf, Bool.and_eq_true, beq_iff_eq] at ha hb
    exact ha.1.trans hb.1.symm

theorem jsStartsWith_head_ne (p : String) {a b : Char} {t₁ t₂ : List Char}
    (pre₁ pre₂ : String) (h₁ : pre₁.toList = a :: t₁) (h₂ : pre₂.toList = b :: t₂)
    (hab : a ≠ b) (h : jsStartsWith p pre₁ = true) : jsStartsWith p pre₂ = false := by
  rcases hx : jsStartsWith p pre₂ with _ | _
  · rfl
  · exfalso
    unfold jsStartsWith at h hx
    rw [h₁] at h
    rw [h₂] at hx
    exact hab (isPrefixOf_head h hx)

theorem src_not_binLibs (p : String) (h : jsStartsWith p "src/" = true) :
    binLibsScope p = false := by
  unfold binLibsScope
  rw [jsStartsWith_head_ne p "src/" (BUILD_DIR ++ "/") rfl rfl (by decide) h,
    jsStartsWith_head_ne p "src/" (LIBS_DIR ++ "/") rfl rfl (by decide) h]
  rfl

theorem dist_not_binLibs (p : String) (h : jsStartsWith p (DIST_DIR ++ "/") = true) :
    binLibsScope p = false := by
  unfold binLibsScope
  rw [jsStartsWith_head_ne p (DIST_DIR ++ "/") (BUILD_DIR ++ "/") rfl rfl (by decide) h,
    jsStartsWith_head_ne p (DIST_DIR ++ "/") (LIBS_DIR ++ "/") rfl rfl (by decide) h]
  rfl

theorem libs_le_binLibs : ∀ p, libsScope p = true → binLibsScope p = true := by
  intro p hp
  unfold libsScope at hp
  unfold binLibsScope
  rw [hp]
  simp

theorem strAppend_assoc (a b c : String) : (a ++ b) ++ c = a ++ (b ++ c) := by
  cases a with | mk d₁ =>
  cases b with | mk d₂ =>
  cases c with | mk d₃ =>
  show String.mk ((d₁ ++ d₂) ++ d₃) = String.mk (d₁ ++ (d₂ ++ d₃))
  rw [List.append_assoc]

theorem binLibs_bin_path (x : String) : binLibsScope (BUILD_DIR ++ "/" ++ x) = true := by
  unfold binLibsScope
  rw [show BUILD_DIR ++ "/" ++ x = (BUILD_DIR ++ "/") ++ x from (strAppend_assoc BUILD_DIR "/" x).symm]
  rw [jsStartsWith_of_append]
  rfl

theorem find?_cons_eq {α : Type} (f : α → Bool) (a : α) (l : List α) :
    List.find? f (a :: l) = if f a then some a else List.find? f l := by
  rcases h : f a with _ | _
  · simp [List.find?, h]
  · simp [List.find?, h]

theorem walkJava_eq_of_outside {w' w : World}
    (h : filesOutside binLibsScope w' = filesOutside binLibsScope w) :
    walkJava w' = walkJava w := by
  have key : ∀ l : List (String × FData),
      ((l.map (fun e => e.1)).filter (fun p => jsStartsWith p "src/" && jsEndsWith p ".java"))
      = (((l.filter (fun e => !(binLibsScope e.1))).map (fun e => e.1)).filter
          (fun p => jsStartsWith p "src/" && jsEndsWith p ".java")) := by
    intro l
    induction l with
    | nil => rfl
    | cons e rest ih =>
      rcases hb : binLibsScope e.1 with _ | _
      · simp only [List.map_cons, List.filter_cons, hb, Bool.not_false, if_true,
          List.map_cons, List.filter_cons]
        rw [ih]
      · have hsrc : jsStartsWith e.1 "src/" = false := by
          rcases hs : jsStartsWith e.1 "src/" with _ | _
          · rfl
          · rw [src_not_binLibs e.1 hs] at hb
            cases hb
        simp only [List.map_cons, List.filter_cons, hb, hsrc, Bool.not_true,
          Bool.false_and, if_false]
        exact ih
  unfold walkJava
  rw [key w'.files, key w.files]
  have h' := h
  unfold filesOutside at h'
  rw [h']

theorem fsLookup_eq_of_outside {scope : String → Bool} {w' w : World}
    (h : filesOutside scope w' = filesOutside scope w) {p : String}
    (hp : scope p = false) : fsLookup w' p = fsLookup w p := by
  have key : ∀ l : List (String × FData),
      List.find? (fun e => e.1 == p) l
        = List.find? (fun e => e.1 == p) (l.filter (fun e => !(scope e.1))) := by
    intro l
    induction l with
    | nil => rfl
    | cons e rest ih =>
      rcases hs : scope e.1 with _ | _
      · have hfil : (e :: rest).filter (fun e => !(scope e.1))
            = e :: rest.filter (fun e => !(scope e.1)) := by
          simp [List.filter_cons, hs]
        rw [hfil, find?_cons_eq, find?_cons_eq, ih]
      · have he : (e.1 == p) = false := by
          rcases hx : (e.1 == p) with _ | _
          · rfl
          · have hep : e.1 = p := by simpa using hx
            rw [hep, hp] at hs
            cases hs
        have hfil : (e :: rest).filter (fun e => !(scope e.1))
            = rest.filter (fun e => !(scope e.1)) := by
          simp [List.filter_cons, hs]
        rw [hfil, find?_cons_eq, he]
        simpa using ih
  unfold fsLookup
  have h' := h
  unfold filesOutside at h'
  rw [key w'.files, key w.files, h']

theorem failsOutside_mthrow {α : Type} (scope : String → Bool) (e : String)
    (w₀ : World) : FailsOutside scope (mthrow e : M α) w₀ := by
  intro w hw
  exact ⟨⟨e, rfl⟩, hw⟩

theorem failsOutside_bind {α β : Type} {scope : String → Bool} {x : M α}
    {f : α → M β} {w₀ : World} (hx : Scoped scope x)
    (hf : ∀ a, FailsOutside scope (f a) w₀) :
    FailsOutside scope (x >>= f) w₀ := by
  intro w hw
  rw [bind_def]
  rcases hxw : x w with ⟨r, w₁⟩
  have hw₁ : filesOutside scope w₁ = filesOutside scope w₀ := by
    have hx' := hx w
    rw [hxw] at hx'
    rw [← hw]
    exact hx'
  cases r with
  | error e => exact ⟨⟨e, rfl⟩, hw₁⟩
  | ok a => exact hf a w₁ hw₁

theorem failsOutside_getW_bind {β : Type} {scope : String → Bool}
    {f : World → M β} {w₀ : World}
    (hf : ∀ w, filesOutside scope w = filesOutside scope w₀ →
      FailsOutside scope (f w) w₀) :
    FailsOutside scope (getW >>= f) w₀ := by
  intro w hw
  have hrun : (getW >>= f) w = f w w := rfl
  rw [hrun]
  exact hf w hw w hw

theorem failsOutside_ite {α : Type} {scope : String → Bool} (c : Prop)
    [Decidable c] {a b : M α} {w₀ : World}
    (ha : c → FailsOutside scope a w₀) (hb : ¬ c → FailsOutside scope b w₀) :
    FailsOutside scope (if c then a else b) w₀ := by
  by_cases hc : c
  · rw [if_pos hc]
    exact ha hc
  · rw [if_neg hc]
    exact hb hc

theorem scoped_getModrinthProject (scope : String → Bool) (ext : Oracles)
    (id : String) : Scoped scope (getModrinthProject ext id) := by
  unfold getModrinthProject
  apply scoped_bind (scoped_traceM _ _)
  intro _
  dsimp only
  cases ext.modrinth id with
  | none => exact scoped_of_worldConst (worldConst_mthrow _) _
  | some p =>
    apply scoped_ite
    · exact scoped_of_worldConst (worldConst_mthrow _) _
    · exact scoped_of_worldConst (worldConst_pure _) _

theorem scoped_tryRegistries (scope : String → Bool) (ext : Oracles) :
    ∀ regs ap, Scoped scope (tryRegistries ext regs ap) := by
  intro regs
  induction regs with
  | nil => intro ap; exact scoped_of_worldConst (worldConst_pure _) _
  | cons reg rest ih =>
    intro ap
    unfold tryRegistries
    apply scoped_bind (scoped_traceM _ _)
    intro _
    dsimp only
    cases ext.fetchUrl (reg ++ ap) with
    | some payload => exact scoped_of_worldConst (worldConst_pure _) _
    | none => exact ih ap

theorem scoped_processDep (ext : Oracles) (proj : Project) (force : Bool)
    (jars : List String) (kv : String × String) :
    Scoped libsScope (processDep ext proj force jars kv) := by
  unfold processDep
  apply scoped_ite
  · exact scoped_of_worldConst (worldConst_pure _) _
  · apply scoped_ite
    · apply scoped_ite
      · exact scoped_of_worldConst (worldConst_mthrow _) _
      · apply scoped_bind (scoped_of_worldConst (worldConst_statF _) _)
        intro ex
        dsimp only
        apply scoped_ite
        · exact scoped_of_worldConst (worldConst_pure _) _
        · apply scoped_bind (scoped_tryRegistries _ ext _ _)
          intro hit
          dsimp only
          cases hit with
          | some payload =>
            apply scoped_bind (scoped_mkdirF _ _)
            intro _
            apply scoped_bind (scoped_writeF _ _ (libsScope_mavenJarPathOf _))
            intro _
            exact scoped_of_worldConst (worldConst_pure _) _
          | none => exact scoped_of_worldConst (worldConst_mthrow _) _
    · apply scoped_ite
      · apply scoped_bind (scoped_of_worldConst (worldConst_statF _) _)
        intro ex
        dsimp only
        apply scoped_ite
        · exact scoped_of_worldConst (worldConst_mthrow _) _
        · exact scoped_of_worldConst (worldConst_pure _) _
      · apply scoped_bind (scoped_of_worldConst (worldConst_statF _) _)
        intro ex
        dsimp only
        apply scoped_ite
        · apply scoped_bind (scoped_getModrinthProject _ ext _)
          intro mp
          dsimp only
          cases selectVersionInstall kv.2 force proj.compatPlatforms
              proj.compatVersions mp.versions none with
          | none => exact scoped_of_worldConst (worldConst_mthrow _) _
          | some f =>
            apply scoped_bind (scoped_traceM _ _)
            intro _
            dsimp only
            cases ext.fetchUrl f.url with
            | none => exact scoped_of_worldConst (worldConst_mthrow _) _
            | some payload =>
              apply scoped_bind (scoped_mkdirF _ _)
              intro _
              apply scoped_bind (scoped_writeF _ _ (libsScope_registryJarPathOf kv))
              intro _
              exact scoped_of_worldConst (worldConst_pure _) _
        · exact scoped_of_worldConst (worldConst_pure _) _

theorem scoped_processDeps (ext : Oracles) (proj : Project) (force : Bool) :
    ∀ deps jars, Scoped libsScope (processDeps ext proj force deps jars) := by
  intro deps
  induction deps with
  | nil => intro jars; exact scoped_of_worldConst (worldConst_pure _) _
  | cons kv rest ih =>
    intro jars
    unfold processDeps
    apply scoped_bind (scoped_processDep ext proj force jars kv)
    intro jars₁
    exact ih jars₁

theorem scoped_gcRemoveAll {scope : String → Bool} :
    ∀ l, (∀ p ∈ l, scope p = true) → Scoped scope (gcRemoveAll l) := by
  intro l
  induction l with
  | nil => intro _; exact scoped_of_worldConst (worldConst_pure _) _
  | cons p rest ih =>
    intro hmem
    unfold gcRemoveAll
    apply scoped_bind (scoped_removeF p (hmem p (List.mem_cons_self p rest)))
    intro _
    exact ih (fun q hq => hmem q (List.mem_cons_of_mem p hq))

theorem libsScope_of_isLibsDirJar {p : String} (h : isLibsDirJar p = true) :
    libsScope p = true := by
  unfold isLibsDirJar at h
  unfold libsScope
  simp only [Bool.and_eq_true] at h
  exact h.1.1

theorem gcCandidates_scope (w : World) (jars : List String) :
    ∀ p ∈ gcCandidates w jars, libsScope p = true := by
  intro p hp
  unfold gcCandidates at hp
  rw [List.mem_filter] at hp
  have h2 := hp.2
  simp only [Bool.and_eq_true] at h2
  exact libsScope_of_isLibsDirJar h2.1

theorem scoped_gcLibs (jars : List String) : Scoped libsScope (gcLibs jars) := by
  unfold gcLibs
  apply scoped_bind (scoped_of_worldConst worldConst_getW _)
  intro w
  exact scoped_gcRemoveAll _ (gcCandidates_scope w jars)

theorem scoped_installPlatformStep {scope : String → Bool} (ext : Oracles)
    (platform version pp : String) (fp : Bool) (hp : scope pp = true) :
    Scoped scope (installPlatformStep ext platform version pp fp) := by
  unfold installPlatformStep
  apply scoped_bind (scoped_of_worldConst (worldConst_statF _) _)
  intro ex
  dsimp only
  apply scoped_ite
  · apply scoped_bind (scoped_traceM _ _)
    intro _
    dsimp only
    cases ext.snapshot (getPlatformRepository platform) version with
    | none => exact scoped_of_worldConst (worldConst_mthrow _) _
    | some payload =>
      apply scoped_bind (scoped_mkdirF _ _)
      intro _
      exact scoped_writeF pp _ hp
  · exact scoped_of_worldConst (worldConst_pure _) _

theorem scoped_installCore (ext : Oracles) (proj : Project) (force fp : Bool) :
    Scoped libsScope (installDependenciesCore ext proj force fp) := by
  unfold installDependenciesCore
  apply scoped_bind (scoped_of_worldConst (worldConst_liftE _) _)
  intro pv
  apply scoped_bind (scoped_installPlatformStep ext pv.1 pv.2 (platformJarPath pv)
    fp (libsScope_platformJarPath pv))
  intro _
  apply scoped_bind (scoped_processDeps ext proj force proj.dependencies
    [platformJarPath pv])
  intro jarsF
  apply scoped_bind (scoped_gcLibs jarsF)
  intro _
  exact scoped_of_worldConst (worldConst_pure _) _

theorem scoped_copyResources (proj : Project) :
    ∀ rs, Scoped binLibsScope (copyResources proj rs) := by
  intro rs
  induction rs with
  | nil => exact scoped_of_worldConst (worldConst_pure _) _
  | cons r rest ih =>
    obtain ⟨resource, relPath⟩ := r
    unfold copyResources
    apply scoped_bind
    · apply scoped_catchM
      · apply scoped_bind (scoped_of_worldConst (worldConst_readF _) _)
        intro d
        dsimp only
        cases d with
        | text content =>
          apply scoped_bind (scoped_mkdirF _ _)
          intro _
          exact scoped_writeF _ _ (binLibs_bin_path resource)
        | jarFile es => exact scoped_of_worldConst (worldConst_mthrow _) _
        | bin n => exact scoped_of_worldConst (worldConst_mthrow _) _
        | config p => exact scoped_of_worldConst (worldConst_mthrow _) _
      · intro e
        exact scoped_of_worldConst (worldConst_mthrow _) _
    · intro _
      exact ih

theorem scoped_writeShadedFiles :
    ∀ l, Scoped binLibsScope (writeShadedFiles l) := by
  intro l
  induction l with
  | nil => exact scoped_of_worldConst (worldConst_pure _) _
  | cons fc rest ih =>
    obtain ⟨file, content⟩ := fc
    unfold writeShadedFiles
    apply scoped_bind (scoped_mkdirF _ _)
    intro _
    apply scoped_bind (scoped_writeF _ _ (binLibs_bin_path file))
    intro _
    exact ih

theorem worldConst_readDependencyJars (ext : Oracles) (proj : Project) :
    ∀ l, WorldConst (readDependencyJars ext proj l) := by
  intro l
  induction l with
  | nil => exact worldConst_pure _
  | cons kv rest ih =>
    unfold readDependencyJars
    apply worldConst_bind (worldConst_liftE _)
    intro path
    dsimp only
    apply worldConst_bind (worldConst_jarToObject _ _ _)
    intro obj
    apply worldConst_bind ih
    intro tail
    exact worldConst_pure _

theorem scoped_shadeAndCollect (ext : Oracles) (proj : Project) :
    ∀ l names, Scoped binLibsScope (shadeAndCollect ext proj l names) := by
  intro l
  induction l with
  | nil => intro names; exact scoped_of_worldConst (worldConst_pure _) _
  | cons hd rest ih =>
    intro names
    obtain ⟨key, jarRef, jarObject⟩ := hd
    unfold shadeAndCollect
    apply scoped_bind (scoped_of_worldConst (worldConst_liftE _) _)
    intro parsed
    dsimp only
    apply scoped_bind
    · apply scoped_ite
      · exact scoped_writeShadedFiles jarObject
      · exact scoped_of_worldConst (worldConst_pure _) _
    · intro _
      exact ih _

theorem failsOutside_throw_bind {α β : Type} (scope : String → Bool) (e : String)
    (f : α → M β) (w₀ : World) : FailsOutside scope (mthrow e >>= f) w₀ :=
  fun _ hw => ⟨⟨e, rfl⟩, hw⟩

theorem buildProject_tail_nosrc (ext : Oracles) (proj : Project)
    (pv : String × String) (w₀ : World) (h : walkJava w₀ = [])
    (parsedYaml : PluginYaml) :
    FailsOutside binLibsScope
      (do
        let merged := mergeManifest parsedYaml proj
        let depJars ← readDependencyJars ext proj proj.dependencies
        let names ← shadeAndCollect ext proj depJars (fragmentDependencyNames merged)
        writeF (BUILD_DIR ++ "/plugin.yml") (FData.text (ext.yamlDump merged names pv.2))
        let cpDeps ← liftE (depClassPath proj.dependencies)
        let cp := (LIBS_DIR ++ "/" ++ pv.1 ++ "-" ++ pv.2 ++ ".jar") :: cpDeps
        let w ← getW
        let files := walkJava w
        if files.isEmpty then mthrow "No Java source files found in src/ directory"
        else
          match ext.javac files cp with
          | Except.error stderr => mthrow ("Failed to compile Java sources: " ++ stderr)
          | Except.ok _ => do
            removeTreeF DIST_DIR
            mkdirF DIST_DIR
            match ext.jarTool (proj.name ++ "-" ++ proj.version) with
            | Except.error stderr => mthrow ("Failed to create JAR file: " ++ stderr)
            | Except.ok payload => do
              writeF (DIST_DIR ++ "/" ++ proj.name ++ "-" ++ proj.version ++ ".jar")
                (FData.bin payload)
              pure (DIST_DIR ++ "/" ++ proj.name ++ "-" ++ proj.version ++ ".jar"))
      w₀ := by
  dsimp only
  apply failsOutside_bind (scoped_of_worldConst
    (worldConst_readDependencyJars ext proj _) _)
  intro depJars
  dsimp only
  apply failsOutside_bind (scoped_shadeAndCollect ext proj depJars _)
  intro names
  dsimp only
  apply failsOutside_bind (scoped_writeF _ _
    (by decide : binLibsScope (BUILD_DIR ++ "/plugin.yml") = true))
  intro _
  apply failsOutside_bind (scoped_of_worldConst (worldConst_liftE _) _)
  intro cpDeps
  dsimp only
  apply failsOutside_getW_bind
  intro w' hw'
  have hwj : walkJava w' = [] := (walkJava_eq_of_outside hw').trans h
  rw [hwj]
  exact failsOutside_mthrow _ _ _

theorem buildProject_nosrc (ext : Oracles) (proj : Project) (w₀ : World)
    (h : walkJava w₀ = []) :
    FailsOutside binLibsScope (buildProject ext proj) w₀ := by
  unfold buildProject
  apply failsOutside_bind (scoped_of_worldConst (worldConst_liftE _) _)
  intro pv
  apply failsOutside_bind (scoped_removeTreeF BUILD_DIR
    (fun p hp => by unfold binLibsScope; rw [hp]; rfl))
  intro _
  apply failsOutside_bind (scoped_mkdirF _ _)
  intro _
  apply failsOutside_bind (scoped_copyResources proj proj.resources)
  intro _
  dsimp only
  cases findPluginYml proj with
  | none =>
    apply failsOutside_bind (scoped_of_worldConst (worldConst_pure _) _)
    intro parsedYaml
    exact buildProject_tail_nosrc ext proj pv w₀ h parsedYaml
  | some rel =>
    apply failsOutside_bind (scoped_of_worldConst (worldConst_readF _) _)
    intro d
    dsimp only
    cases d with
    | text s =>
      apply failsOutside_bind (scoped_of_worldConst (worldConst_liftE _) _)
      intro parsedYaml
      exact buildProject_tail_nosrc ext proj pv w₀ h parsedYaml
    | jarFile es => exact failsOutside_throw_bind _ _ _ _
    | bin n => exact failsOutside_throw_bind _ _ _ _
    | config p => exact failsOutside_throw_bind _ _ _ _

/-- C7.  Corrected: a build with zero Java source files always fails with a
reported error, and the files of the distribution directory are untouched
(no partial archive, nothing cleared); but the `dist` directory itself IS
created by the build command's preamble (`Deno.mkdir(DIST_DIR, ...)` runs
before dependency installation and compilation), contradicting the
claim's "neither created". -/
theorem c7_zero_sources (ext : Oracles) (w : World) (h : walkJava w = []) :
    (∃ e, (buildCommand ext w).1 = Except.error e) ∧
    ∀ p, jsStartsWith p (DIST_DIR ++ "/") = true →
      fsLookup ((buildCommand ext w).2) p = fsLookup w p := by
  have main : FailsOutside binLibsScope (buildCommand ext) w := by
    unfold buildCommand
    apply failsOutside_bind (scoped_of_worldConst (worldConst_statF _) _)
    intro ex
    dsimp only
    apply failsOutside_ite
    · intro _
      exact failsOutside_mthrow _ _ _
    · intro _
      apply failsOutside_bind (scoped_of_worldConst (worldConst_readF _) _)
      intro d
      dsimp only
      cases d with
      | text s => exact failsOutside_mthrow _ _ _
      | jarFile es => exact failsOutside_mthrow _ _ _
      | bin n => exact failsOutside_mthrow _ _ _
      | config proj =>
        apply failsOutside_bind (scoped_mkdirF _ _)
        intro _
        apply failsOutside_bind (scoped_mkdirF _ _)
        intro _
        apply failsOutside_bind (scoped_mono libs_le_binLibs
          (scoped_installCore ext proj false false))
        intro _
        exact buildProject_nosrc ext proj w h
  refine ⟨(main w rfl).1, ?_⟩
  intro p hp
  exact fsLookup_eq_of_outside ((main w rfl).2) (dist_not_binLibs p hp)

/-- Witness for C7's amended theorem: the concrete zero-source world
satisfies the hypothesis and the conclusion. -/
theorem c7_zero_sources_witness :
    walkJava c7World₀ = [] ∧
    ((∃ e, (buildCommand exOracles c7World₀).1 = Except.error e) ∧
      ∀ p, jsStartsWith p (DIST_DIR ++ "/") = true →
        fsLookup ((buildCommand exOracles c7World₀).2) p = fsLookup c7World₀ p) :=
  ⟨rfl, c7_zero_sources exOracles c7World₀ rfl⟩

/-- C7 counterexample to "the distribution directory ... is neither
created nor cleared": on the concrete zero-source build the command fails
with the reported zero-source error and no dist file is produced, yet the
`dist` directory, absent beforehand, has been created by the preamble. -/
theorem c7_counterexample :
    (buildCommand exOracles c7World₀).1
        = Except.error "No Java source files found in src/ directory"
      ∧ ((buildCommand exOracles c7World₀).2).dirs.contains "dist" = true
      ∧ c7World₀.dirs.contains "dist" = false
      ∧ ((buildCommand exOracles c7World₀).2).files.filter
          (fun e => jsStartsWith e.1 (DIST_DIR ++ "/")) = [] :=
  ⟨rfl, rfl, rfl, rfl⟩
